import Mathlib

/-!
Verification of the evacuation dispatch engine of the Civil Protection
server (`Civil Protection/server.js`, the `/api/plan-routes` endpoint
registered first in the file and its helpers).

Modelling conventions:
* Coordinates are `[lon, lat]` pairs, embedded as `ℚ × ℚ`.
* JavaScript numbers used for seat counters are embedded as `ℕ`
  (`Math.max(0, a - b)` is truncated subtraction).
* `haversineKm` evaluates trigonometric functions over floats, so it
  cannot be a computable rational function.  Every piece of the planner
  uses it only through comparisons, so the embedding takes the distance
  function as an explicit parameter `distKm`; theorems are proved for an
  arbitrary such function and witnesses instantiate it with the
  computable surrogate `sqDist`.
* External calls (`osrmTable`, `osrmRoute`, `optimizeTours`) are pure
  inputs of the embedding: the duration matrix is an
  `Option (List (List (Option ℚ)))` (row/entry missing or non-finite is
  `none`), the routing call is a function `List Coord → Option Routed`,
  and the optimizer response is a list of `RouteResp` (empty list for a
  null/absent result).  Sending e-mails is a side effect outside the
  data flow and is not modelled.
-/

abbrev Coord : Type := ℚ × ℚ

/-- One ray-casting update of `pointInRing`'s `inside` flag for the edge
`(ring[j] = e.2, ring[i] = e.1)`; mirrors the JS
`((yi > y) !== (yj > y)) && (x < (xj-xi)*(y-yi)/((yj-yi) || 1e-12) + xi)`. -/
def rayStep (x y : ℚ) (inside : Bool) (e : Coord × Coord) : Bool :=
  let xi := e.1.1
  let yi := e.1.2
  let xj := e.2.1
  let yj := e.2.2
  if (decide (y < yi) != decide (y < yj)) &&
      decide (x < (xj - xi) * (y - yi) /
        (if yj - yi = 0 then 1 / (1000000000000 : ℚ) else yj - yi) + xi)
  then !inside else inside

/-- The edge list scanned by `pointInRing`: for each index `i` the pair
`(ring[i], ring[j])` with `j = i - 1` wrapping to the last element. -/
def ringEdges (ring : List Coord) : List (Coord × Coord) :=
  match ring.getLast? with
  | none => []
  | some lst => ring.zip (lst :: ring)

/-- `pointInRing` from server.js: standard ray casting over the ring edges. -/
def pointInRing (p : Coord) (ring : List Coord) : Bool :=
  (ringEdges ring).foldl (rayStep p.1 p.2) false

/-- `pointInPolygon`: inside the outer ring and inside no hole ring
(`rings[0]` is the outer ring, the rest are holes); empty coordinate
arrays yield `false`. -/
def pointInPolygon (p : Coord) (rings : List (List Coord)) : Bool :=
  match rings with
  | [] => false
  | outer :: holes =>
    if !pointInRing p outer then false
    else holes.all fun r => !pointInRing p r

/-- A GeoJSON geometry as consumed by the planner: the `type` tags other
than `"Polygon"`/`"MultiPolygon"` are collapsed into `other`. -/
inductive Geom
  | polygon (rings : List (List Coord))
  | multiPolygon (polys : List (List (List Coord)))
  | other
deriving DecidableEq

/-- `pointInMultiPolygon`: inside at least one constituent polygon. -/
def pointInMultiPolygon (p : Coord) (polys : List (List (List Coord))) : Bool :=
  polys.any fun pc => pointInPolygon p pc

/-- `pointInGeom`: dispatch on the geometry type; `null` geometry
(`none`) and any non-polygonal type give `false`. -/
def pointInGeom (p : Coord) (g : Option Geom) : Bool :=
  match g with
  | none => false
  | some (.polygon rings) => pointInPolygon p rings
  | some (.multiPolygon ps) => pointInMultiPolygon p ps
  | some .other => false

/-- `isActive` from server.js over parsed timestamps (milliseconds since
epoch; `none` models both a missing field and an unparsable date, as
`parseDateSafe` returns `null` for those): ended in the past or starting
in the future is inactive, everything else is active. -/
def isActive (now : ℤ) (start fin : Option ℤ) : Bool :=
  if fin.any fun e => decide (e ≤ now) then false
  else if start.any fun s => decide (now < s) then false
  else true

/-- Does the geometry's `type` string match `/Polygon/i`
("Polygon" and "MultiPolygon" do, other types do not)? -/
def isPolygonish : Geom → Bool
  | .polygon _ => true
  | .multiPolygon _ => true
  | .other => false

/-- One hazard record as fetched by `loadActiveDisasterGeometries`:
main perimeter geometry (absent when the record has none), the
`projectedAreasOfEffect` list and the activity window. -/
structure HazardRec where
  geom : Option Geom
  projected : List Geom
  startT : Option ℤ
  endT : Option ℤ

/-- The geometries a single hazard record contributes: its main
perimeter when polygonal, then its polygonal projected areas. -/
def hazardGeoms (h : HazardRec) : List Geom :=
  (match h.geom with
   | some g => if isPolygonish g then [g] else []
   | none => []) ++ h.projected.filter isPolygonish

/-- `loadActiveDisasterGeometries`: keep the geometries of records whose
activity window contains `now`. -/
def loadActiveDisasterGeometries (now : ℤ) (hazards : List HazardRec) : List Geom :=
  hazards.foldr
    (fun h acc => (if isActive now h.startT h.endT then hazardGeoms h else []) ++ acc) []

/-- One AMEA (target) record as loaded by `loadAmeaFeatures`; `coord` is
`none` when the feature's coordinates are not a two-element array. -/
structure AmeaRec where
  id : String
  name : String
  coord : Option Coord
  disability_info : String
  phone : String
deriving DecidableEq

/-- An eligible target of one planning run. -/
structure Target where
  id : String
  name : String
  coord : Coord
  disability_info : String
  phone : String
deriving DecidableEq

/-- The eligibility test of the plan-routes endpoint:
`geoms.some(g => pointInGeom(c, g))`. -/
def isEligible (geoms : List Geom) (c : Coord) : Bool :=
  geoms.any fun g => pointInGeom c (some g)

/-- `targets` construction in plan-routes: each AMEA record with a
well-formed coordinate pair that lies in some active disaster geometry
becomes a target, in record order. -/
def targetsOf (geoms : List Geom) (amea : List AmeaRec) : List Target :=
  amea.foldr
    (fun f acc =>
      match f.coord with
      | some c =>
        if isEligible geoms c then
          ⟨f.id, f.name, c, f.disability_info, f.phone⟩ :: acc
        else acc
      | none => acc) []

/-- Computable surrogate distance (squared Euclidean on raw
lon/lat), used to instantiate `distKm` in witnesses and
counterexamples; the planner only compares distances. -/
def sqDist (a b : Coord) : ℚ :=
  (a.1 - b.1) * (a.1 - b.1) + (a.2 - b.2) * (a.2 - b.2)

/-- The `CITY_CENTERS` object, in `Object.entries` order. -/
def CITY_CENTERS : List (String × Coord) :=
  [("Athens", (23.7348, 37.9755)),
   ("Thessaloniki", (22.9444, 40.6401)),
   ("Patras", (21.7346, 38.2466))]

/-- `CITY_RADIUS_KM` (default 90). -/
def CITY_RADIUS_KM : ℚ := 90

/-- `nearestCityForCoord`: strict-minimum scan over the city centers
(first city wins ties, `bestD` starts at `Infinity`, i.e. `none`),
returning the best city only when its distance is within the radius. -/
def nearestCityForCoord (distKm : Coord → Coord → ℚ) (c : Coord) : Option String :=
  let best := CITY_CENTERS.foldl
    (fun acc e =>
      let d := distKm e.2 c
      match acc with
      | none => some (e.1, d)
      | some b => if d < b.2 then some (e.1, d) else acc) none
  match best with
  | some b => if b.2 ≤ CITY_RADIUS_KM then some b.1 else none
  | none => none

/-- The inner scan of `nearestNeighborRoute`: index of the remaining
stop nearest to `curr` (`bestIdx` starts at 0, `bestD` at `Infinity`,
strict `<`, so the first minimum wins). -/
def nnPickIdx (distKm : Coord → Coord → ℚ) (curr : Coord) (remaining : List Target) : ℕ :=
  ((remaining.enum.foldl
    (fun acc e =>
      let d := distKm curr e.2.coord
      match acc.2 with
      | none => (e.1, some d)
      | some bd => if d < bd then (e.1, some d) else acc)
    ((0, none) : ℕ × Option ℚ))).1

/-- The `while` loop of `nearestNeighborRoute`, with fuel; every
iteration splices the chosen stop out of `remaining`. -/
def nnLoop (distKm : Coord → Coord → ℚ) : ℕ → Coord → List Target → List Target
  | 0, _, _ => []
  | fuel + 1, curr, remaining =>
    if remaining.isEmpty then []
    else
      let i := nnPickIdx distKm curr remaining
      match remaining.get? i with
      | none => []
      | some nxt => nxt :: nnLoop distKm fuel nxt.coord (remaining.eraseIdx i)

/-- `nearestNeighborRoute` from server.js (the helper defined next to the
geometry kernel; the served plan-routes endpoint never calls it). -/
def nearestNeighborRoute (distKm : Coord → Coord → ℚ) (startCoord : Coord)
    (stops : List Target) : List Target :=
  nnLoop distKm stops.length startCoord stops

/-- The per-vehicle working state built in plan-routes (`vehiclesAll`
elements); `picks` holds indices into the run's target array. -/
structure VehState where
  id : String
  email : Option String
  vtype : String
  plate : String
  start : Coord
  seatsLeft : ℕ
  city : Option String
  picks : List ℕ
deriving DecidableEq

/-- Update the `i`-th element of a list in place (a JS mutation of an
array element); out-of-range indices leave the list unchanged. -/
def listModify {α : Type} (l : List α) (i : ℕ) (f : α → α) : List α :=
  match l.get? i with
  | some a => l.set i (f a)
  | none => l

/-- The cost of a `(vehicle, target)` pair in the greedy fallback:
the OSRM duration-matrix entry when the table call succeeded, the row
exists and the entry is finite, otherwise the distance from the
vehicle's start to the target (`haversineKm` in the source).  The
out-of-range defaults are never reached: the loop only forms in-range
pairs. -/
def pairScore (durations : Option (List (List (Option ℚ))))
    (distKm : Coord → Coord → ℚ) (vehicles : List VehState) (targets : List Target)
    (vi ti : ℕ) : ℚ :=
  let fallback :=
    distKm (((vehicles.get? vi).map (·.start)).getD (0, 0))
      (((targets.get? ti).map (·.coord)).getD (0, 0))
  match durations with
  | some m =>
    match (m.get? vi).bind fun row => (row.get? ti).join with
    | some q => q
    | none => fallback
  | none => fallback

/-- One comparison step of the greedy scan: replace the best triple
`(bestVI, bestTI, bestScore)` only on strict improvement (`bestScore`
starts at `Infinity`, i.e. `none`). -/
def scanStep (cost : ℕ × ℕ → ℚ) (acc : Option (ℕ × ℕ × ℚ)) (p : ℕ × ℕ) :
    Option (ℕ × ℕ × ℚ) :=
  let s := cost p
  match acc with
  | none => some (p.1, p.2, s)
  | some b => if s < b.2.2 then some (p.1, p.2, s) else acc

/-- The nested scan of the greedy fallback: vehicles in array order
(skipping those without seats), then the unassigned targets in set
order. -/
def sourceScan (cost : ℕ × ℕ → ℚ) (vehicles : List VehState) (unassigned : List ℕ) :
    Option (ℕ × ℕ × ℚ) :=
  (List.range vehicles.length).foldl
    (fun acc vi =>
      if (vehicles.get? vi).elim false (fun v => 0 < v.seatsLeft) then
        unassigned.foldl (fun a ti => scanStep cost a (vi, ti)) acc
      else acc) none

/-- The mutable state of the greedy fallback loop: the vehicle array
and the set of unassigned target indices (JS `Set` iterates in
insertion order, so a list). -/
structure GreedyState where
  vehicles : List VehState
  unassigned : List ℕ
deriving DecidableEq

/-- Commit one greedy assignment: push the target index onto the
vehicle's picks, decrement its seats, drop the target from the pool. -/
def applyAssign (st : GreedyState) (vi ti : ℕ) : GreedyState :=
  { vehicles := listModify st.vehicles vi fun v =>
      { v with picks := v.picks ++ [ti], seatsLeft := v.seatsLeft - 1 }
    unassigned := st.unassigned.erase ti }

/-- The greedy fallback `while` loop, with fuel (one target is removed
per iteration, so `targets.length` fuel is exact). -/
def greedyLoop (cost : ℕ × ℕ → ℚ) : ℕ → GreedyState → GreedyState
  | 0, st => st
  | fuel + 1, st =>
    if ¬st.unassigned.isEmpty ∧ st.vehicles.any (fun v => 0 < v.seatsLeft) then
      match sourceScan cost st.vehicles st.unassigned with
      | some b => greedyLoop cost fuel (applyAssign st b.1 b.2.1)
      | none => st
    else st

/-- The whole greedy fallback of plan-routes: all targets start
unassigned (`new Set(targets.map((_, i) => i))`). -/
def greedyFallback (cost : ℕ × ℕ → ℚ) (vehicles : List VehState) (nTargets : ℕ) :
    GreedyState :=
  greedyLoop cost nTargets { vehicles := vehicles, unassigned := List.range nTargets }

/-- The shipment name built for target `i`: `t-${t.id || idx}` (an empty
id falls back to the index). -/
def shipName (targets : List Target) (i : ℕ) : String :=
  "t-" ++
    (match targets.get? i with
     | some t => if t.id = "" then toString i else t.id
     | none => toString i)

/-- `shipmentByName.get`: the JS `Map` is filled in index order, so on
duplicate names the last insertion wins. -/
def shipmentByNameLookup (targets : List Target) (lbl : String) : Option ℕ :=
  (List.range targets.length).reverse.find? fun i => shipName targets i = lbl

/-- The vehicle entry name built for vehicle `v`: `veh-${v.id}`. -/
def vehName (v : VehState) : String := "veh-" ++ v.id

/-- `vehicleByName.get` (last insertion wins on duplicate ids). -/
def vehicleByNameLookup (vehicles : List VehState) (lbl : String) : Option ℕ :=
  (List.range vehicles.length).reverse.find? fun i =>
    (vehicles.get? i).elim false fun v => vehName v = lbl

/-- `Map.get` on an index-keyed map with keys `0 .. n-1`
(`vehicleByIndex` / `shipmentByIndex`). -/
def idxGetNat (n : ℕ) (i : ℤ) : Option ℕ :=
  if 0 ≤ i ∧ i.toNat < n then some i.toNat else none

/-- One `visit` of an optimizer route; integer-valued fields are `none`
when absent or not an integer. -/
structure Visit where
  shipmentIndex : Option ℤ
  shipmentLabel : Option String
  requestIndex : Option ℤ
  visitRequestIndex : Option ℤ
  shipmentIndices : List ℤ
deriving DecidableEq

/-- One route of the optimizer response. -/
structure RouteResp where
  vehicle : Option String
  vehicleIndex : Option ℤ
  vehicleLabel : Option String
  visits : List Visit
deriving DecidableEq

/-- The defensive index chain of `getShipmentFromVisit`:
`requestIndex`, else `visitRequestIndex`, else `shipmentIndices[0]`. -/
def defensiveIdx (v : Visit) : Option ℤ :=
  match v.requestIndex with
  | some i => some i
  | none =>
    match v.visitRequestIndex with
    | some i => some i
    | none => v.shipmentIndices.head?

/-- `getShipmentFromVisit`: resolve a visit to a target index by
shipment index, else by label (an empty label is falsy in JS and falls
through to the defensive chain), else by the defensive chain.  A lookup
miss on the chosen strategy yields `undefined` (`none`) without trying
the next strategy, matching the early `return`s in the source. -/
def getShipmentFromVisit (targets : List Target) (v : Visit) : Option ℕ :=
  match v.shipmentIndex with
  | some i => idxGetNat targets.length i
  | none =>
    match v.shipmentLabel with
    | some lbl =>
      if lbl = "" then (defensiveIdx v).bind (idxGetNat targets.length)
      else shipmentByNameLookup targets lbl
    | none => (defensiveIdx v).bind (idxGetNat targets.length)

/-- Resolve a route to a vehicle index: by `route.vehicle` name, else by
`route.vehicleIndex`, else by `route.vehicleLabel` name, else by the
route's position `ri` in the response array.  The resolution maps are
built from the request arrays before the loop, so they read the initial
`vehiclesAll` (ids never change). -/
def resolveVehicle (vehicles : List VehState) (r : RouteResp) (ri : ℕ) : Option ℕ :=
  let byName := fun (o : Option String) =>
    match o with
    | some lbl => if lbl = "" then none else vehicleByNameLookup vehicles lbl
    | none => none
  match byName r.vehicle with
  | some k => some k
  | none =>
    match r.vehicleIndex.bind (idxGetNat vehicles.length) with
    | some k => some k
    | none =>
      match byName r.vehicleLabel with
      | some k => some k
      | none => if ri < vehicles.length then some ri else none

/-- State of the CFR mapping patch: the vehicle array plus the
`assignedShipmentIdx` set (a JS `Set`: inserted once, insertion order). -/
structure RemoteState where
  vehicles : List VehState
  assigned : List ℕ
deriving DecidableEq

/-- `Set.add` for the assigned-index set. -/
def addIdx (s : List ℕ) (i : ℕ) : List ℕ :=
  if i ∈ s then s else s ++ [i]

/-- Process one optimizer route (`solved.routes.forEach`): resolve the
vehicle, resolve each visit to a target index (unresolved visits are
skipped), then overwrite the vehicle's picks with the resolved sequence
and clamp its seats down by that many
(`Math.max(0, seatsLeft - ordered.length)`). -/
def applyRouteResp (targets : List Target) (veh0 : List VehState)
    (st : RemoteState) (pr : ℕ × RouteResp) : RemoteState :=
  match resolveVehicle veh0 pr.2 pr.1 with
  | none => st
  | some vIdx =>
    let ordered := pr.2.visits.filterMap (getShipmentFromVisit targets)
    { vehicles := listModify st.vehicles vIdx fun v =>
        { v with picks := ordered, seatsLeft := v.seatsLeft - ordered.length }
      assigned := ordered.foldl addIdx st.assigned }

/-- The CFR mapping over all routes; picks are cleared first
(`for (const v of vehiclesAll) v.picks = []`). -/
def cfrMapping (targets : List Target) (veh0 : List VehState)
    (routes : List RouteResp) : RemoteState :=
  routes.enum.foldl (applyRouteResp targets veh0)
    { vehicles := veh0.map fun v => { v with picks := [] }, assigned := [] }

/-- One comparison step of the safety-net scan: skip vehicles without
seats, otherwise keep the strictly closer candidate (`bestScore` starts
at `Infinity`, i.e. `none`). -/
def sNetScanStep (distKm : Coord → Coord → ℚ) (c : Coord) (acc : Option (ℕ × ℚ))
    (iv : ℕ × VehState) : Option (ℕ × ℚ) :=
  if iv.2.seatsLeft = 0 then acc
  else
    let d := distKm iv.2.start c
    match acc with
    | none => some (iv.1, d)
    | some b => if d < b.2 then some (iv.1, d) else acc

/-- The safety-net scan: among vehicles with seats left, the first one
at strictly minimal distance to the missing target's coordinate. -/
def sNetPick (distKm : Coord → Coord → ℚ) (vehicles : List VehState) (c : Coord) :
    Option (ℕ × ℚ) :=
  vehicles.enum.foldl (sNetScanStep distKm c) none

/-- Attach one missing target: append it to the chosen vehicle's picks
and decrement that vehicle's seats; with no vehicle of spare capacity
the state is unchanged (the source only logs a console warning). -/
def sNetStep (distKm : Coord → Coord → ℚ) (targets : List Target)
    (st : RemoteState) (mi : ℕ) : RemoteState :=
  match targets.get? mi with
  | none => st
  | some t =>
    match sNetPick distKm st.vehicles t.coord with
    | some b =>
      { st with vehicles := listModify st.vehicles b.1 fun v =>
          { v with picks := v.picks ++ [mi], seatsLeft := v.seatsLeft - 1 } }
    | none => st

/-- The indices of shipments the mapping did not mark assigned, in
index order. -/
def missingIdx (targets : List Target) (st : RemoteState) : List ℕ :=
  (List.range targets.length).filter fun i => i ∉ st.assigned

/-- The safety net: greedily attach every missing shipment.  (The
`assignedShipmentIdx.size < shipmentsModel.length` guard is equivalent
to folding over an empty missing list.) -/
def safetyNet (distKm : Coord → Coord → ℚ) (targets : List Target)
    (st : RemoteState) : RemoteState :=
  (missingIdx targets st).foldl (sNetStep distKm targets) st

/-- The whole remote-optimizer branch of plan-routes: CFR mapping, then
the safety net. -/
def remoteAssign (distKm : Coord → Coord → ℚ) (targets : List Target)
    (veh0 : List VehState) (routes : List RouteResp) : RemoteState :=
  safetyNet distKm targets (cfrMapping targets veh0 routes)

/-- One fleet record as produced by `loadFleetFeatures` (records whose
coordinates are not a two-element array are already dropped there). -/
structure FleetRec where
  id : String
  email : Option String
  coord : Coord
  totalSeats : ℤ
  occupiedSeats : ℤ
  vtype : String
  plate : String
deriving DecidableEq

/-- `availableSeats = Math.max(0, totalSeats - occupiedSeats)`. -/
def availableSeats (v : FleetRec) : ℕ :=
  (v.totalSeats - v.occupiedSeats).toNat

/-- The `vehiclesAll` element built from one fleet record. -/
def mkVehState (distKm : Coord → Coord → ℚ) (v : FleetRec) : VehState :=
  { id := v.id, email := v.email, vtype := v.vtype, plate := v.plate,
    start := v.coord, seatsLeft := availableSeats v,
    city := nearestCityForCoord distKm v.coord, picks := [] }

/-- `vehiclesAll`: map fleet records, keep positive seats, then apply
the optional vehicle-id `include` filter. -/
def vehiclesAllOf (distKm : Coord → Coord → ℚ) (includeIds : List String)
    (fleet : List FleetRec) : List VehState :=
  ((fleet.map (mkVehState distKm)).filter fun v => 0 < v.seatsLeft).filter
    fun v => if includeIds.isEmpty then true else includeIds.contains v.id

/-- Properties of an emitted route feature. -/
structure RouteProps where
  vtype : String
  vehicleId : String
  license_plate : String
  city : Option String
  assigned : ℕ
  capacityUsed : ℕ
  capacityTotal : ℕ
  distanceKm : ℚ
  durationMin : Option ℚ
deriving DecidableEq

/-- Properties of an emitted pickup feature. -/
structure PickupProps where
  vtype : String
  vehicleId : String
  license_plate : String
  city : Option String
  seq : ℕ
  name : String
deriving DecidableEq

/-- An output feature: a route line (`kind: 'route'`) or a numbered
pickup point (`kind: 'pickup'`). -/
inductive PlanFeature
  | route (geometry : List Coord) (props : RouteProps)
  | pickup (coord : Coord) (props : PickupProps)
deriving DecidableEq

/-- A successful `osrmRoute` result. -/
structure Routed where
  geometry : List Coord
  distanceKm : ℚ
  durationMin : ℚ
deriving DecidableEq

/-- `Number(x.toFixed(2))` over the rational model. -/
def round2 (x : ℚ) : ℚ := (round (x * 100) : ℤ) / 100

/-- `Number(x.toFixed(1))` over the rational model. -/
def round1 (x : ℚ) : ℚ := (round (x * 10) : ℤ) / 10

/-- Sum of consecutive legs of the straight-line fallback path. -/
def legSum (distKm : Coord → Coord → ℚ) : List Coord → ℚ
  | a :: b :: rest => distKm a b + legSum distKm (b :: rest)
  | _ => 0

/-- A default target; the pipeline only dereferences in-range pick
indices, so it is never observed. -/
def dummyTarget : Target := ⟨"", "", (0, 0), "", ""⟩

/-- The stops of one vehicle in emission order: the picks are used
as-is (`const order = v.picks`). -/
def orderStops (targets : List Target) (v : VehState) : List Target :=
  v.picks.map fun i => (targets.get? i).getD dummyTarget

/-- Build the output features of one vehicle: nothing when it has no
picks; otherwise one route feature (OSRM geometry, or the straight-line
fallback with summed legs and no duration) followed by one numbered
pickup feature per stop. -/
def vehicleFeatures (routeFn : List Coord → Option Routed)
    (distKm : Coord → Coord → ℚ) (targets : List Target) (v : VehState) :
    List PlanFeature :=
  if v.picks.isEmpty then []
  else
    let ord := orderStops targets v
    let orderedCoords := v.start :: ord.map (·.coord)
    let rp := routeFn orderedCoords
    let geometry := match rp with
      | some r => r.geometry
      | none => orderedCoords
    let distanceKm := match rp with
      | some r => round2 r.distanceKm
      | none => round2 (legSum distKm orderedCoords)
    let durationMin := match rp with
      | some r => some (round1 r.durationMin)
      | none => none
    PlanFeature.route geometry
        ⟨v.vtype, v.id, v.plate, v.city, ord.length, ord.length, v.seatsLeft,
          distanceKm, durationMin⟩
      :: ord.enum.map fun it =>
          PlanFeature.pickup it.2.coord ⟨v.vtype, v.id, v.plate, v.city, it.1 + 1, it.2.name⟩

/-- All output features, vehicles in array order. -/
def buildFeatures (routeFn : List Coord → Option Routed)
    (distKm : Coord → Coord → ℚ) (targets : List Target)
    (vehicles : List VehState) : List PlanFeature :=
  vehicles.foldr (fun v acc => vehicleFeatures routeFn distKm targets v ++ acc) []

/-- The `meta` object of a plan-routes response. -/
structure PlanMeta where
  vehicles : ℕ
  targets : ℕ
  activeDisasters : ℕ
  reason : Option String
deriving DecidableEq

/-- A plan-routes response body (a GeoJSON feature collection with
metadata). -/
structure PlanResult where
  features : List PlanFeature
  meta : PlanMeta
deriving DecidableEq

/-- The plan-routes endpoint over one snapshot of its inputs.
`Except.error` models the `catch` branch answering
`500 {error: 'plan_failed'}`: the only throwing step of the pure data
flow is the per-city grouping, which evaluates
`cityVehicles[v.city].push(v)` and `cityTargets[c].push(t)` — a `null`
city indexes a missing key and calling `push` on `undefined` throws a
`TypeError`.  (The groups themselves are dead stores: no later step
reads them.) -/
def planRoutes (distKm : Coord → Coord → ℚ) (routeFn : List Coord → Option Routed)
    (amea : List AmeaRec) (fleet : List FleetRec) (geoms : List Geom)
    (includeIds : List String) (solvedRoutes : List RouteResp)
    (durations : Option (List (List (Option ℚ)))) : Except String PlanResult :=
  if fleet.isEmpty ∨ geoms.isEmpty then
    .ok ⟨[], ⟨fleet.length, 0, geoms.length, none⟩⟩
  else
    let targets := targetsOf geoms amea
    if targets.isEmpty then
      .ok ⟨[], ⟨fleet.length, 0, geoms.length, none⟩⟩
    else
      let vehiclesAll := vehiclesAllOf distKm includeIds fleet
      let totalFree : ℕ := (vehiclesAll.map (·.seatsLeft)).sum
      if totalFree = 0 then
        .ok ⟨[], ⟨fleet.length, targets.length, geoms.length,
          some (if includeIds.isEmpty then "no_capacity" else "no_capacity_in_selected")⟩⟩
      else
        if (vehiclesAll.all fun v => v.city.isSome) &&
            (targets.all fun t => (nearestCityForCoord distKm t.coord).isSome) then
          let finalVehicles :=
            if solvedRoutes.isEmpty then
              (greedyFallback
                (fun p => pairScore durations distKm vehiclesAll targets p.1 p.2)
                vehiclesAll targets.length).vehicles
            else
              (remoteAssign distKm targets vehiclesAll solvedRoutes).vehicles
          .ok ⟨buildFeatures routeFn distKm targets finalVehicles,
            ⟨fleet.length, targets.length, geoms.length, none⟩⟩
        else .error "plan_failed"

/-- Features of a successful run (empty on error); shared observer for
statements about concrete runs. -/
def okFeatures (r : Except String PlanResult) : List PlanFeature :=
  match r with
  | .ok r => r.features
  | .error _ => []

/-- Metadata of a successful run; shared observer. -/
def okMeta (r : Except String PlanResult) : Option PlanMeta :=
  match r with
  | .ok r => some r.meta
  | .error _ => none

/-- The pickup features, as `(coordinate, properties)` pairs. -/
def pickupsOf (fs : List PlanFeature) : List (Coord × PickupProps) :=
  fs.filterMap fun f =>
    match f with
    | .pickup c p => some (c, p)
    | .route _ _ => none

/-- The route-feature properties, in emission order. -/
def routePropsOf (fs : List PlanFeature) : List RouteProps :=
  fs.filterMap fun f =>
    match f with
    | .route _ p => some p
    | .pickup _ _ => none

/-- Modelled from the claim for the refinement comparison: all candidate
pairs of a vehicle with remaining seats and an unassigned target, in
vehicle-major then pool order (the pool is kept in ascending target
index order). -/
def scanPairsList (vehicles : List VehState) (unassigned : List ℕ) : List (ℕ × ℕ) :=
  (List.range vehicles.length).foldr
    (fun vi acc =>
      (if (vehicles.get? vi).elim false (fun v => 0 < v.seatsLeft) then
        unassigned.map fun ti => (vi, ti)
      else []) ++ acc) []

/-- Modelled from the claim: the first pair of the candidate list
attaining the globally minimum cost (earlier pairs win ties). -/
def specFirstMin (cost : ℕ × ℕ → ℚ) : List (ℕ × ℕ) → Option (ℕ × ℕ × ℚ)
  | [] => none
  | p :: l =>
    match specFirstMin cost l with
    | none => some (p.1, p.2, cost p)
    | some b => if cost p ≤ b.2.2 then some (p.1, p.2, cost p) else some b

/-- Modelled from the claim: the iterative greedy loop — pick the first
globally cheapest candidate pair, assign it, repeat until no vehicle has
seats or no targets remain. -/
def specGreedyLoop (cost : ℕ × ℕ → ℚ) : ℕ → GreedyState → GreedyState
  | 0, st => st
  | fuel + 1, st =>
    if ¬st.unassigned.isEmpty ∧ st.vehicles.any (fun v => 0 < v.seatsLeft) then
      match specFirstMin cost (scanPairsList st.vehicles st.unassigned) with
      | some b => specGreedyLoop cost fuel (applyAssign st b.1 b.2.1)
      | none => st
    else st

/-- Modelled from the claim: the whole fallback solver per the claim's
wording. -/
def specGreedyFallback (cost : ℕ × ℕ → ℚ) (vehicles : List VehState)
    (nTargets : ℕ) : GreedyState :=
  specGreedyLoop cost nTargets
    { vehicles := vehicles, unassigned := List.range nTargets }

/-- Modelled from the claim: the pair cost — "the duration-matrix entry
when the matrix call succeeded and the entry is finite, otherwise the
haversine distance". -/
def specCost (durations : Option (List (List (Option ℚ))))
    (distKm : Coord → Coord → ℚ) (vehicles : List VehState) (targets : List Target)
    (p : ℕ × ℕ) : ℚ :=
  match durations.bind fun m => (m.get? p.1).bind fun row => (row.get? p.2).join with
  | some q => q
  | none =>
    distKm (((vehicles.get? p.1).map (·.start)).getD (0, 0))
      (((targets.get? p.2).map (·.coord)).getD (0, 0))

/-- The per-vehicle seat-accounting invariant: picks taken plus seats
left never exceed the per-vehicle bound. -/
def vehInv (bound : ℕ → ℕ) (vehicles : List VehState) : Prop :=
  ∀ i v, vehicles.get? i = some v → v.picks.length + v.seatsLeft ≤ bound i

/-- Relabelling of the partition tag of a vehicle, used to show the
fallback solver never reads the partition. -/
def relabelCity (f : Option String → Option String) (v : VehState) : VehState :=
  { v with city := f v.city }

/-- The error payload of a failed run; shared observer. -/
def errOf (r : Except String PlanResult) : Option String :=
  match r with
  | .error e => some e
  | .ok _ => none

/-! ## General lemmas -/

theorem mem_loadActiveDisasterGeometries {now : ℤ} {hazards : List HazardRec} {g : Geom} :
    g ∈ loadActiveDisasterGeometries now hazards ↔
      ∃ h ∈ hazards, isActive now h.startT h.endT = true ∧ g ∈ hazardGeoms h := by
  induction hazards with
  | nil => simp [loadActiveDisasterGeometries]
  | cons h t ih =>
    by_cases ha : isActive now h.startT h.endT
    · simp only [loadActiveDisasterGeometries, List.foldr_cons, ha, if_true,
        List.mem_append] at ih ⊢
      rw [ih]
      simp only [List.mem_cons]
      constructor
      · rintro (hg | ⟨hz, hm, hact, hgz⟩)
        · exact ⟨h, Or.inl rfl, ha, hg⟩
        · exact ⟨hz, Or.inr hm, hact, hgz⟩
      · rintro ⟨hz, rfl | hm, hact, hgz⟩
        · exact Or.inl hgz
        · exact Or.inr ⟨hz, hm, hact, hgz⟩
    · simp only [loadActiveDisasterGeometries, List.foldr_cons, ha, Bool.false_eq_true,
        if_false, List.nil_append] at ih ⊢
      rw [ih]
      simp only [List.mem_cons]
      constructor
      · rintro ⟨hz, hm, hact, hg⟩; exact ⟨hz, Or.inr hm, hact, hg⟩
      · rintro ⟨hz, rfl | hm, hact, hg⟩
        · exact absurd hact ha
        · exact ⟨hz, hm, hact, hg⟩

theorem isActive_iff (now : ℤ) (s e : Option ℤ) :
    isActive now s e = true ↔
      ((e = none ∨ ∃ t, e = some t ∧ now < t) ∧ ∀ u, s = some u → u ≤ now) := by
  cases s <;> cases e <;> simp [isActive]

/-! ## C4: the geometry kernel -/

/-- C4: `pointInGeom` is true for a `Polygon` iff the ray-casting test
puts the point inside the outer ring and inside none of the hole rings
(and false when the polygon has no rings at all); true for a
`MultiPolygon` iff the point is inside at least one constituent
polygon; and false for a missing or non-polygonal geometry.  The
embedding is a pure function, so the test has no side effects. -/
theorem c4_pointInGeom_spec :
    (∀ (p : Coord) (outer : List Coord) (holes : List (List Coord)),
      pointInGeom p (some (.polygon (outer :: holes))) = true ↔
        (pointInRing p outer = true ∧ ∀ r ∈ holes, pointInRing p r = false)) ∧
    (∀ p : Coord, pointInGeom p (some (.polygon [])) = false) ∧
    (∀ (p : Coord) (ps : List (List (List Coord))),
      pointInGeom p (some (.multiPolygon ps)) = true ↔
        ∃ pc ∈ ps, pointInPolygon p pc = true) ∧
    (∀ p : Coord, pointInGeom p (some .other) = false) ∧
    (∀ p : Coord, pointInGeom p none = false) := by
  refine ⟨fun p outer holes => ?_, fun p => rfl, fun p ps => ?_, fun p => rfl, fun p => rfl⟩
  · by_cases h : pointInRing p outer
    · simp [pointInGeom, pointInPolygon, h, List.all_eq_true]
    · simp [pointInGeom, pointInPolygon, h]
  · simp [pointInGeom, pointInMultiPolygon, List.any_eq_true]

/-- Witness for C4 at Scenario A's square: `(1,1)` is inside the square
`[[0,0],[2,0],[2,2],[0,2],[0,0]]` and `(5,5)` is not. -/
theorem c4_pointInGeom_spec_witness :
    pointInGeom (1, 1) (some (.polygon [[(0,0),(2,0),(2,2),(0,2),(0,0)]])) = true ∧
      pointInGeom ((5 : ℚ), (5 : ℚ)) none = false :=
  ⟨(c4_pointInGeom_spec.1 (1, 1) [(0,0),(2,0),(2,2),(0,2),(0,0)] []).mpr
      ⟨by with_unfolding_all decide, by simp⟩,
    c4_pointInGeom_spec.2.2.2.2 (5, 5)⟩

/-! ## C3: target eligibility -/

/-- C3: a fetched target record with well-formed coordinates becomes an
eligible target of the run iff its point lies inside a geometry of at
least one active hazard record, where active means the end time is
absent or strictly in the future and the start time is not in the
future. -/
theorem c3_eligibility (now : ℤ) (hazards : List HazardRec) (rec : AmeaRec) (c : Coord)
    (h : rec.coord = some c) :
    targetsOf (loadActiveDisasterGeometries now hazards) [rec] ≠ [] ↔
      ∃ hz ∈ hazards,
        ((hz.endT = none ∨ ∃ e, hz.endT = some e ∧ now < e) ∧
          ∀ s, hz.startT = some s → s ≤ now) ∧
        ∃ g ∈ hazardGeoms hz, pointInGeom c (some g) = true := by
  have hstep : targetsOf (loadActiveDisasterGeometries now hazards) [rec] ≠ [] ↔
      isEligible (loadActiveDisasterGeometries now hazards) c = true := by
    simp only [targetsOf, List.foldr_cons, List.foldr_nil, h]
    by_cases he : isEligible (loadActiveDisasterGeometries now hazards) c
    · simp [he]
    · simp [he]
  rw [hstep]
  simp only [isEligible, List.any_eq_true]
  constructor
  · rintro ⟨g, hg, hin⟩
    rcases mem_loadActiveDisasterGeometries.mp hg with ⟨hz, hm, hact, hgz⟩
    exact ⟨hz, hm, ((isActive_iff now hz.startT hz.endT).mp hact), g, hgz, hin⟩
  · rintro ⟨hz, hm, hact, g, hgz, hin⟩
    exact ⟨g, mem_loadActiveDisasterGeometries.mpr
      ⟨hz, hm, (isActive_iff now hz.startT hz.endT).mpr hact, hgz⟩, hin⟩

/-- Witness for C3: one active hazard (no end time, started in the
past) whose square contains the record's point. -/
theorem c3_eligibility_witness :
    targetsOf
      (loadActiveDisasterGeometries 100
        [⟨some (.polygon [[(0,0),(2,0),(2,2),(0,2),(0,0)]]), [], some 0, none⟩])
      [⟨"t1", "T1", some (1, 1), "", ""⟩] ≠ [] :=
  (c3_eligibility 100 _ _ (1, 1) rfl).mpr
    ⟨⟨some (.polygon [[(0,0),(2,0),(2,2),(0,2),(0,0)]]), [], some 0, none⟩,
      List.mem_singleton.mpr rfl,
      ⟨Or.inl rfl, fun s hs => by cases hs; decide⟩,
      .polygon [[(0,0),(2,0),(2,2),(0,2),(0,0)]], by decide,
      by with_unfolding_all decide⟩

theorem listModify_length {α : Type} (l : List α) (i : ℕ) (f : α → α) :
    (listModify l i f).length = l.length := by
  unfold listModify
  cases h : l.get? i <;> simp [h]

theorem listModify_get_self {α : Type} (l : List α) (i : ℕ) (f : α → α) :
    (listModify l i f).get? i = (l.get? i).map f := by
  unfold listModify
  cases h : l.get? i with
  | none => simpa using h
  | some a =>
    have hi : i < l.length := by
      by_contra hlt
      rw [List.get?_eq_getElem?, List.getElem?_eq_none (by omega)] at h
      exact Option.noConfusion h
    simp [List.get?_eq_getElem?, List.getElem?_set_self hi]

theorem listModify_get_other {α : Type} (l : List α) (i j : ℕ) (f : α → α) (h : j ≠ i) :
    (listModify l i f).get? j = l.get? j := by
  unfold listModify
  cases hg : l.get? i with
  | none => rfl
  | some a => simp [List.get?_eq_getElem?, List.getElem?_set_ne (fun he => h he.symm)]

theorem foldl_blocks {α β γ : Type} (f : γ → β → γ) (g : α → List β) (l : List α)
    (init : γ) :
    (l.foldr (fun a acc => g a ++ acc) []).foldl f init =
      l.foldl (fun acc a => (g a).foldl f acc) init := by
  induction l generalizing init with
  | nil => rfl
  | cons a t ih => simp only [List.foldr_cons, List.foldl_append, List.foldl_cons, ih]

theorem foldl_filter {α β : Type} (p : α → Bool) (f : β → α → β) (l : List α) (init : β) :
    (l.filter p).foldl f init =
      l.foldl (fun acc a => if p a then f acc a else acc) init := by
  induction l generalizing init with
  | nil => rfl
  | cons a t ih =>
    by_cases hp : p a
    · simp [List.filter_cons, hp, ih]
    · simp [List.filter_cons, hp, ih]

theorem mem_foldr_append {α β : Type} (g : α → List β) (l : List α) (b : β) :
    b ∈ l.foldr (fun x acc => g x ++ acc) [] ↔ ∃ x ∈ l, b ∈ g x := by
  induction l with
  | nil => simp
  | cons a t ih => simp [List.foldr_cons, ih]

theorem sourceScan_eq_flat (cost : ℕ × ℕ → ℚ) (veh : List VehState) (un : List ℕ) :
    sourceScan cost veh un = (scanPairsList veh un).foldl (scanStep cost) none := by
  unfold sourceScan scanPairsList
  rw [foldl_blocks]
  congr 1
  funext acc vi
  by_cases hc : (veh[vi]?.elim false fun v => decide (0 < v.seatsLeft)) = true
  · simp [hc, List.foldl_map]
  · simp [hc]

theorem foldl_scanStep_some (cost : ℕ × ℕ → ℚ) (l : List (ℕ × ℕ)) (b : ℕ × ℕ × ℚ) :
    l.foldl (scanStep cost) (some b) =
      match specFirstMin cost l with
      | none => some b
      | some r => if r.2.2 < b.2.2 then some r else some b := by
  induction l generalizing b with
  | nil => rfl
  | cons p t ih =>
    by_cases hpb : cost p < b.2.2
    · simp only [List.foldl_cons, scanStep, hpb, if_true, ih, specFirstMin]
      cases hr : specFirstMin cost t with
      | none => simp [hpb]
      | some r =>
        by_cases hc : cost p ≤ r.2.2
        · have h1 : ¬r.2.2 < cost p := not_lt.mpr hc
          simp [hc, h1, hpb]
        · have h1 : r.2.2 < cost p := lt_of_not_le hc
          have h2 : r.2.2 < b.2.2 := lt_trans h1 hpb
          simp [hc, h1, h2]
    · simp only [List.foldl_cons, scanStep, hpb, if_false, ih, specFirstMin]
      cases hr : specFirstMin cost t with
      | none => simp [hpb]
      | some r =>
        by_cases hc : cost p ≤ r.2.2
        · have h1 : ¬r.2.2 < b.2.2 := not_lt.mpr (le_trans (not_lt.mp hpb) hc)
          simp [hc, h1, hpb]
        · simp [hc]

theorem foldl_scanStep_none (cost : ℕ × ℕ → ℚ) (l : List (ℕ × ℕ)) :
    l.foldl (scanStep cost) none = specFirstMin cost l := by
  cases l with
  | nil => rfl
  | cons p t =>
    simp only [List.foldl_cons, scanStep, foldl_scanStep_some, specFirstMin]
    cases hr : specFirstMin cost t with
    | none => rfl
    | some r =>
      by_cases hc : cost p ≤ r.2.2
      · have h1 : ¬r.2.2 < cost p := not_lt.mpr hc
        simp [hc, h1]
      · have h1 : r.2.2 < cost p := lt_of_not_le hc
        simp [hc, h1]

theorem sourceScan_eq_spec (cost : ℕ × ℕ → ℚ) (veh : List VehState) (un : List ℕ) :
    sourceScan cost veh un = specFirstMin cost (scanPairsList veh un) := by
  rw [sourceScan_eq_flat, foldl_scanStep_none]

theorem specFirstMin_eq_none_iff (cost : ℕ × ℕ → ℚ) (l : List (ℕ × ℕ)) :
    specFirstMin cost l = none ↔ l = [] := by
  cases l with
  | nil => simp [specFirstMin]
  | cons p t =>
    simp only [specFirstMin]
    cases hr : specFirstMin cost t with
    | none => simp
    | some r =>
      by_cases hc : cost p ≤ r.2.2 <;> simp [hc]

theorem specFirstMin_mem {cost : ℕ × ℕ → ℚ} :
    ∀ {l : List (ℕ × ℕ)} {b : ℕ × ℕ × ℚ}, specFirstMin cost l = some b →
      (b.1, b.2.1) ∈ l ∧ b.2.2 = cost (b.1, b.2.1) := by
  intro l
  induction l with
  | nil => intro b h; simp [specFirstMin] at h
  | cons p t ih =>
    intro b h
    simp only [specFirstMin] at h
    cases hr : specFirstMin cost t with
    | none =>
      simp only [hr] at h
      cases h
      simp
    | some r =>
      simp only [hr] at h
      by_cases hc : cost p ≤ r.2.2
      · rw [if_pos hc] at h
        cases h
        simp
      · rw [if_neg hc] at h
        cases h
        rcases ih hr with ⟨hm, he⟩
        exact ⟨List.mem_cons_of_mem _ hm, he⟩

theorem specFirstMin_min {cost : ℕ × ℕ → ℚ} :
    ∀ {l : List (ℕ × ℕ)} {b : ℕ × ℕ × ℚ}, specFirstMin cost l = some b →
      ∀ q ∈ l, b.2.2 ≤ cost q := by
  intro l
  induction l with
  | nil => intro b h; simp [specFirstMin] at h
  | cons p t ih =>
    intro b h q hq
    simp only [specFirstMin] at h
    cases hr : specFirstMin cost t with
    | none =>
      simp only [hr] at h
      cases h
      have ht : t = [] := (specFirstMin_eq_none_iff cost t).mp hr
      subst ht
      rcases List.mem_cons.mp hq with rfl | hq
      · exact le_refl _
      · simp at hq
    | some r =>
      simp only [hr] at h
      rcases List.mem_cons.mp hq with rfl | hq
      · by_cases hc : cost q ≤ r.2.2
        · rw [if_pos hc] at h; cases h; exact le_refl _
        · rw [if_neg hc] at h; cases h; exact le_of_lt (lt_of_not_le hc)
      · by_cases hc : cost p ≤ r.2.2
        · rw [if_pos hc] at h; cases h
          exact le_trans hc (ih hr q hq)
        · rw [if_neg hc] at h; cases h
          exact ih hr q hq

theorem mem_scanPairsList {veh : List VehState} {un : List ℕ} {vi ti : ℕ} :
    (vi, ti) ∈ scanPairsList veh un ↔
      (∃ v, veh.get? vi = some v ∧ 0 < v.seatsLeft) ∧ ti ∈ un := by
  unfold scanPairsList
  rw [mem_foldr_append]
  constructor
  · rintro ⟨x, hx, hmem⟩
    by_cases hc : ((veh.get? x).elim false fun v => decide (0 < v.seatsLeft)) = true
    · rw [if_pos hc] at hmem
      rcases List.mem_map.mp hmem with ⟨t, ht, he⟩
      cases he
      cases hv : veh.get? vi with
      | none => rw [hv] at hc; simp at hc
      | some v =>
        rw [hv] at hc
        simp only [Option.elim, decide_eq_true_eq] at hc
        exact ⟨⟨v, rfl, hc⟩, ht⟩
    · rw [if_neg hc] at hmem
      simp at hmem
  · rintro ⟨⟨v, hv, hs⟩, ht⟩
    have hv2 := hv
    rw [List.get?_eq_getElem?] at hv2
    refine ⟨vi, ?_, ?_⟩
    · exact List.mem_range.mpr (List.getElem?_eq_some_iff.mp hv2).1
    · rw [if_pos (by simp [hv2, hs])]
      exact List.mem_map.mpr ⟨ti, ht, rfl⟩

theorem scanPairsList_ne_nil {veh : List VehState} {un : List ℕ}
    (hun : un ≠ []) (hveh : ∃ v ∈ veh, 0 < v.seatsLeft) :
    scanPairsList veh un ≠ [] := by
  rcases hveh with ⟨v, hv, hs⟩
  rcases List.get_of_mem hv with ⟨⟨i, hi⟩, rfl⟩
  rcases List.exists_mem_of_ne_nil un hun with ⟨ti, hti⟩
  intro hnil
  have : (i, ti) ∈ scanPairsList veh un := by
    refine mem_scanPairsList.mpr ⟨⟨veh.get ⟨i, hi⟩, ?_, hs⟩, hti⟩
    rw [List.get?_eq_getElem?, List.getElem?_eq_some_iff]
    exact ⟨hi, rfl⟩
  rw [hnil] at this
  simp at this

theorem greedyLoop_eq_spec (cost : ℕ × ℕ → ℚ) :
    ∀ (fuel : ℕ) (st : GreedyState), greedyLoop cost fuel st = specGreedyLoop cost fuel st := by
  intro fuel
  induction fuel with
  | zero => intro st; rfl
  | succ n ih =>
    intro st
    unfold greedyLoop specGreedyLoop
    rw [sourceScan_eq_spec]
    by_cases hc : ¬st.unassigned.isEmpty ∧ st.vehicles.any (fun v => 0 < v.seatsLeft)
    · rw [if_pos hc, if_pos hc]
      cases specFirstMin cost (scanPairsList st.vehicles st.unassigned) with
      | none => rfl
      | some b => exact ih _
    · rw [if_neg hc, if_neg hc]

theorem greedyFallback_eq_spec (cost : ℕ × ℕ → ℚ) (vehicles : List VehState)
    (nTargets : ℕ) :
    greedyFallback cost vehicles nTargets = specGreedyFallback cost vehicles nTargets :=
  greedyLoop_eq_spec cost nTargets _

theorem greedyLoop_post (cost : ℕ × ℕ → ℚ) :
    ∀ (fuel : ℕ) (st : GreedyState), st.unassigned.length ≤ fuel →
      (greedyLoop cost fuel st).unassigned = [] ∨
        ∀ v ∈ (greedyLoop cost fuel st).vehicles, v.seatsLeft = 0 := by
  intro fuel
  induction fuel with
  | zero =>
    intro st hlen
    exact Or.inl (List.length_eq_zero.mp (Nat.le_zero.mp hlen))
  | succ n ih =>
    intro st hlen
    unfold greedyLoop
    by_cases hc : ¬st.unassigned.isEmpty ∧ st.vehicles.any (fun v => 0 < v.seatsLeft)
    · rw [if_pos hc]
      cases hscan : sourceScan cost st.vehicles st.unassigned with
      | none =>
        exfalso
        rw [sourceScan_eq_spec] at hscan
        have hnil := (specFirstMin_eq_none_iff _ _).mp hscan
        have hun : st.unassigned ≠ [] := by
          intro he
          rw [he] at hc
          simp at hc
        have hveh : ∃ v ∈ st.vehicles, 0 < v.seatsLeft := by
          rcases List.any_eq_true.mp hc.2 with ⟨v, hv, hp⟩
          exact ⟨v, hv, of_decide_eq_true hp⟩
        exact scanPairsList_ne_nil hun hveh hnil
      | some b =>
        have hmem : b.2.1 ∈ st.unassigned := by
          rw [sourceScan_eq_spec] at hscan
          have := (specFirstMin_mem hscan).1
          exact (mem_scanPairsList.mp this).2
        have hlen2 : (applyAssign st b.1 b.2.1).unassigned.length ≤ n := by
          have h1 : (st.unassigned.erase b.2.1).length = st.unassigned.length - 1 :=
            List.length_erase_of_mem hmem
          have h2 : 0 < st.unassigned.length := List.length_pos.mpr (by
            intro he
            rw [he] at hmem
            simp at hmem)
          simp only [applyAssign, h1]
          omega
        exact ih _ hlen2
    · rw [if_neg hc]
      rw [not_and_or] at hc
      rcases hc with hc | hc
      · rw [not_not, List.isEmpty_iff] at hc
        exact Or.inl hc
      · refine Or.inr fun v hv => ?_
        by_contra hs
        exact hc (List.any_eq_true.mpr ⟨v, hv, decide_eq_true (Nat.pos_of_ne_zero hs)⟩)

theorem pairScore_eq_specCost (durations : Option (List (List (Option ℚ))))
    (distKm : Coord → Coord → ℚ) (vehicles : List VehState) (targets : List Target)
    (vi ti : ℕ) :
    pairScore durations distKm vehicles targets vi ti =
      specCost durations distKm vehicles targets (vi, ti) := by
  cases durations <;> rfl

/-! ## C5: the greedy fallback algorithm -/

/-- C5: the greedy fallback is exactly the claim's iterative greedy —
at each iteration it picks the first candidate pair (vehicle with
remaining seats, unassigned target; vehicle-major then target-index
order) attaining the globally minimum cost, assigns it, and repeats;
the cost of a pair is the duration-matrix entry when the matrix call
succeeded and the entry is finite, and the (haversine) distance
otherwise; and the loop runs until no targets remain unassigned or no
vehicle has a seat left. -/
theorem c5_greedy_fallback (durations : Option (List (List (Option ℚ))))
    (distKm : Coord → Coord → ℚ) (vehicles : List VehState) (targets : List Target) :
    greedyFallback (fun p => pairScore durations distKm vehicles targets p.1 p.2)
        vehicles targets.length =
      specGreedyFallback (specCost durations distKm vehicles targets)
        vehicles targets.length ∧
    (∀ vi ti, pairScore durations distKm vehicles targets vi ti =
      specCost durations distKm vehicles targets (vi, ti)) ∧
    ((greedyFallback (fun p => pairScore durations distKm vehicles targets p.1 p.2)
        vehicles targets.length).unassigned = [] ∨
      ∀ v ∈ (greedyFallback (fun p => pairScore durations distKm vehicles targets p.1 p.2)
        vehicles targets.length).vehicles, v.seatsLeft = 0) := by
  have hfun : (fun p : ℕ × ℕ => pairScore durations distKm vehicles targets p.1 p.2) =
      specCost durations distKm vehicles targets := by
    funext p
    exact pairScore_eq_specCost durations distKm vehicles targets p.1 p.2
  refine ⟨?_, fun vi ti => pairScore_eq_specCost durations distKm vehicles targets vi ti, ?_⟩
  · rw [hfun]
    exact greedyFallback_eq_spec _ vehicles targets.length
  · exact greedyLoop_post _ targets.length _ (by simp)

theorem sNetFold_char (distKm : Coord → Coord → ℚ) (c : Coord) :
    ∀ (l : List (ℕ × VehState)) (acc : Option (ℕ × ℚ)),
      (l.foldl (sNetScanStep distKm c) acc = none ↔
        acc = none ∧ ∀ iv ∈ l, iv.2.seatsLeft = 0) ∧
      (∀ b, l.foldl (sNetScanStep distKm c) acc = some b →
        acc = some b ∨
          ∃ iv ∈ l, iv.2.seatsLeft ≠ 0 ∧ b = (iv.1, distKm iv.2.start c)) ∧
      (∀ b, l.foldl (sNetScanStep distKm c) acc = some b →
        ∀ iv ∈ l, iv.2.seatsLeft ≠ 0 → b.2 ≤ distKm iv.2.start c) ∧
      (∀ b a, l.foldl (sNetScanStep distKm c) acc = some b → acc = some a →
        b.2 ≤ a.2) := by
  intro l
  induction l with
  | nil =>
    intro acc
    refine ⟨by simp, fun b hb => Or.inl hb, by simp, ?_⟩
    intro b a hb ha
    simp only [List.foldl_nil] at hb
    rw [hb] at ha
    cases ha
    exact le_refl _
  | cons iv t ih =>
    intro acc
    simp only [List.foldl_cons]
    have key : ∀ (d : ℚ), d = distKm iv.2.start c →
        (sNetScanStep distKm c acc iv = acc ∧ (iv.2.seatsLeft = 0 ∨ ∃ a, acc = some a ∧ a.2 ≤ d)) ∨
        (sNetScanStep distKm c acc iv = some (iv.1, d) ∧ iv.2.seatsLeft ≠ 0 ∧
          ∀ a, acc = some a → d ≤ a.2) := by
      intro d hd
      by_cases hz : iv.2.seatsLeft = 0
      · exact Or.inl ⟨by simp [sNetScanStep, hz], Or.inl hz⟩
      · cases hacc : acc with
        | none =>
          refine Or.inr ⟨by simp [sNetScanStep, hz, hd], hz, ?_⟩
          intro a ha
          exact absurd ha (by simp)
        | some a =>
          by_cases hlt : distKm iv.2.start c < a.2
          · refine Or.inr ⟨by simp [sNetScanStep, hz, hlt, hd], hz, ?_⟩
            intro a2 ha2
            cases ha2
            rw [hd]
            exact le_of_lt hlt
          · refine Or.inl ⟨by simp [sNetScanStep, hz, hlt], Or.inr ⟨a, rfl, ?_⟩⟩
            rw [hd]
            exact not_lt.mp hlt
    rcases key (distKm iv.2.start c) rfl with ⟨heq, hside⟩ | ⟨heq, hz, hmin⟩
    · rw [heq]
      rcases ih acc with ⟨ih1, ih2, ih3, ih4⟩
      refine ⟨?_, ?_, ?_, ih4⟩
      · rw [ih1]
        constructor
        · rintro ⟨ha, hall⟩
          refine ⟨ha, fun jv hj => ?_⟩
          rcases List.mem_cons.mp hj with rfl | hj
          · rcases hside with hz | ⟨a, ha2, _⟩
            · exact hz
            · rw [ha] at ha2; exact Option.noConfusion ha2
          · exact hall jv hj
        · rintro ⟨ha, hall⟩
          exact ⟨ha, fun jv hj => hall jv (List.mem_cons_of_mem _ hj)⟩
      · intro b hb
        rcases ih2 b hb with hacc | ⟨jv, hj, hjz, hje⟩
        · exact Or.inl hacc
        · exact Or.inr ⟨jv, List.mem_cons_of_mem _ hj, hjz, hje⟩
      · intro b hb jv hj hjz
        rcases List.mem_cons.mp hj with rfl | hj
        · rcases hside with hz | ⟨a, ha, had⟩
          · exact absurd hz hjz
          · exact le_trans (ih4 b a hb ha) had
        · exact ih3 b hb jv hj hjz
    · rw [heq]
      rcases ih (some (iv.1, distKm iv.2.start c)) with ⟨ih1, ih2, ih3, ih4⟩
      refine ⟨?_, ?_, ?_, ?_⟩
      · constructor
        · intro h
          exact absurd (ih1.mp h).1 (by simp)
        · rintro ⟨_, hall⟩
          exact absurd (hall iv (List.mem_cons_self _ _)) hz
      · intro b hb
        rcases ih2 b hb with hacc | ⟨jv, hj, hjz, hje⟩
        · cases hacc
          exact Or.inr ⟨iv, List.mem_cons_self _ _, hz, rfl⟩
        · exact Or.inr ⟨jv, List.mem_cons_of_mem _ hj, hjz, hje⟩
      · intro b hb jv hj hjz
        rcases List.mem_cons.mp hj with rfl | hj
        · exact ih4 b _ hb rfl
        · exact ih3 b hb jv hj hjz
      · intro b a hb ha
        have h1 : b.2 ≤ distKm iv.2.start c := ih4 b _ hb rfl
        exact le_trans h1 (hmin a ha)

theorem sNetPick_char (distKm : Coord → Coord → ℚ) (vehicles : List VehState) (c : Coord) :
    (sNetPick distKm vehicles c = none ↔ ∀ v ∈ vehicles, v.seatsLeft = 0) ∧
    (∀ b, sNetPick distKm vehicles c = some b →
      ∃ v, vehicles.get? b.1 = some v ∧ v.seatsLeft ≠ 0 ∧ b.2 = distKm v.start c) ∧
    (∀ b, sNetPick distKm vehicles c = some b →
      ∀ j u, vehicles.get? j = some u → u.seatsLeft ≠ 0 → b.2 ≤ distKm u.start c) := by
  rcases sNetFold_char distKm c vehicles.enum none with ⟨h1, h2, h3, _⟩
  refine ⟨?_, ?_, ?_⟩
  · unfold sNetPick
    rw [h1]
    simp only [true_and]
    constructor
    · intro hall v hv
      rcases List.mem_iff_getElem?.mp hv with ⟨n, hn⟩
      exact hall (n, v) (List.mem_enum_iff_getElem?.mpr hn)
    · intro hall iv hiv
      exact hall iv.2 (List.mem_iff_getElem?.mpr ⟨iv.1, List.mem_enum_iff_getElem?.mp hiv⟩)
  · intro b hb
    rcases h2 b hb with hacc | ⟨iv, hiv, hz, he⟩
    · exact Option.noConfusion hacc
    · refine ⟨iv.2, ?_, hz, by rw [he]⟩
      have hmem := List.mem_enum_iff_getElem?.mp hiv
      have hb1 : b.1 = iv.1 := by rw [he]
      rw [List.get?_eq_getElem?, hb1]
      exact hmem
  · intro b hb j u hj hjz
    refine h3 b hb (j, u) ?_ hjz
    rw [List.get?_eq_getElem?] at hj
    exact List.mem_enum_iff_getElem?.mpr hj

theorem vehInv_listModify_sum (bound : ℕ → ℕ) (vehicles : List VehState) (i : ℕ)
    (f : VehState → VehState)
    (hinv : vehInv bound vehicles)
    (hf : ∀ v, vehicles.get? i = some v →
      (f v).picks.length + (f v).seatsLeft ≤ bound i) :
    vehInv bound (listModify vehicles i f) := by
  intro j v hj
  by_cases hij : j = i
  · subst hij
    rw [listModify_get_self] at hj
    cases hv : vehicles.get? j with
    | none => rw [hv] at hj; exact Option.noConfusion hj
    | some v0 =>
      rw [hv] at hj
      cases hj
      exact hf v0 hv
  · rw [listModify_get_other _ _ _ _ hij] at hj
    exact hinv j v hj

theorem applyAssign_capacity (cost : ℕ × ℕ → ℚ) (bound : ℕ → ℕ) (st : GreedyState)
    (b : ℕ × ℕ × ℚ) (hscan : sourceScan cost st.vehicles st.unassigned = some b)
    (hinv : vehInv bound st.vehicles) :
    vehInv bound (applyAssign st b.1 b.2.1).vehicles := by
  have hmem : ∃ v, st.vehicles.get? b.1 = some v ∧ 0 < v.seatsLeft := by
    rw [sourceScan_eq_spec] at hscan
    exact (mem_scanPairsList.mp (specFirstMin_mem hscan).1).1
  rcases hmem with ⟨v0, hv0, hs0⟩
  refine vehInv_listModify_sum bound st.vehicles b.1 _ hinv ?_
  intro v hv
  rw [hv0] at hv
  cases hv
  have := hinv b.1 v0 hv0
  simp only [List.length_append, List.length_cons, List.length_nil]
  omega

theorem greedyLoop_capacity (cost : ℕ × ℕ → ℚ) (bound : ℕ → ℕ) :
    ∀ (fuel : ℕ) (st : GreedyState), vehInv bound st.vehicles →
      vehInv bound (greedyLoop cost fuel st).vehicles := by
  intro fuel
  induction fuel with
  | zero => intro st h; exact h
  | succ n ih =>
    intro st h
    unfold greedyLoop
    by_cases hc : ¬st.unassigned.isEmpty ∧ st.vehicles.any (fun v => 0 < v.seatsLeft)
    · rw [if_pos hc]
      cases hscan : sourceScan cost st.vehicles st.unassigned with
      | none => exact h
      | some b => exact ih _ (applyAssign_capacity cost bound st b hscan h)
    · rw [if_neg hc]
      exact h

theorem applyRouteResp_capacity (targets : List Target) (veh0 : List VehState)
    (bound : ℕ → ℕ) (st : RemoteState) (pr : ℕ × RouteResp)
    (hcap : ∀ vIdx, resolveVehicle veh0 pr.2 pr.1 = some vIdx →
      (pr.2.visits.filterMap (getShipmentFromVisit targets)).length ≤ bound vIdx)
    (hinv : vehInv bound st.vehicles) :
    vehInv bound (applyRouteResp targets veh0 st pr).vehicles := by
  unfold applyRouteResp
  cases hres : resolveVehicle veh0 pr.2 pr.1 with
  | none => exact hinv
  | some vIdx =>
    refine vehInv_listModify_sum bound st.vehicles vIdx _ hinv ?_
    intro v hv
    have h1 := hcap vIdx hres
    have h2 := hinv vIdx v hv
    simp only
    omega

theorem cfrMapping_capacity (targets : List Target) (veh0 : List VehState)
    (routes : List RouteResp) (bound : ℕ → ℕ)
    (h0 : ∀ i v, veh0.get? i = some v → v.seatsLeft ≤ bound i)
    (hcap : ∀ pr ∈ routes.enum, ∀ vIdx, resolveVehicle veh0 pr.2 pr.1 = some vIdx →
      (pr.2.visits.filterMap (getShipmentFromVisit targets)).length ≤ bound vIdx) :
    vehInv bound (cfrMapping targets veh0 routes).vehicles := by
  unfold cfrMapping
  refine @List.foldlRecOn _ _ (fun st => vehInv bound st.vehicles) routes.enum
    (applyRouteResp targets veh0) _ ?_ ?_
  · intro i v hv
    rw [List.get?_eq_getElem?, List.getElem?_map] at hv
    cases hv0 : veh0.get? i with
    | none =>
      rw [List.get?_eq_getElem?] at hv0
      rw [hv0] at hv
      exact Option.noConfusion hv
    | some u =>
      have hv0e := hv0
      rw [List.get?_eq_getElem?] at hv0e
      rw [hv0e] at hv
      cases hv
      simpa using h0 i u hv0
  · intro st hst pr hpr
    exact applyRouteResp_capacity targets veh0 bound st pr (hcap pr hpr) hst

theorem sNetStep_capacity (distKm : Coord → Coord → ℚ) (targets : List Target)
    (bound : ℕ → ℕ) (st : RemoteState) (mi : ℕ)
    (hinv : vehInv bound st.vehicles) :
    vehInv bound (sNetStep distKm targets st mi).vehicles := by
  unfold sNetStep
  cases ht : targets.get? mi with
  | none => exact hinv
  | some t =>
    dsimp only
    cases hp : sNetPick distKm st.vehicles t.coord with
    | none => exact hinv
    | some b =>
      rcases (sNetPick_char distKm st.vehicles t.coord).2.1 b hp with ⟨v0, hv0, hs0, _⟩
      refine vehInv_listModify_sum bound st.vehicles b.1 _ hinv ?_
      intro v hv
      rw [hv0] at hv
      cases hv
      have := hinv b.1 v0 hv0
      simp only [List.length_append, List.length_cons, List.length_nil]
      omega

theorem safetyNet_capacity (distKm : Coord → Coord → ℚ) (targets : List Target)
    (bound : ℕ → ℕ) (st : RemoteState) (hinv : vehInv bound st.vehicles) :
    vehInv bound (safetyNet distKm targets st).vehicles := by
  unfold safetyNet
  refine @List.foldlRecOn _ _ (fun st2 => vehInv bound st2.vehicles) (missingIdx targets st)
    (sNetStep distKm targets) _ hinv ?_
  intro st2 hst2 mi _
  exact sNetStep_capacity distKm targets bound st2 mi hst2

theorem remoteAssign_capacity (distKm : Coord → Coord → ℚ) (targets : List Target)
    (veh0 : List VehState) (routes : List RouteResp) (bound : ℕ → ℕ)
    (h0 : ∀ i v, veh0.get? i = some v → v.seatsLeft ≤ bound i)
    (hcap : ∀ pr ∈ routes.enum, ∀ vIdx, resolveVehicle veh0 pr.2 pr.1 = some vIdx →
      (pr.2.visits.filterMap (getShipmentFromVisit targets)).length ≤ bound vIdx) :
    vehInv bound (remoteAssign distKm targets veh0 routes).vehicles :=
  safetyNet_capacity distKm targets bound _
    (cfrMapping_capacity targets veh0 routes bound h0 hcap)

theorem vehicleByNameLookup_lt {veh : List VehState} {lbl : String} {k : ℕ}
    (h : vehicleByNameLookup veh lbl = some k) : k < veh.length := by
  unfold vehicleByNameLookup at h
  have := List.mem_of_find?_eq_some h
  rw [List.mem_reverse] at this
  exact List.mem_range.mp this

theorem idxGetNat_lt {n : ℕ} {i : ℤ} {k : ℕ} (h : idxGetNat n i = some k) : k < n := by
  unfold idxGetNat at h
  split at h
  · cases h
    omega
  · exact Option.noConfusion h

theorem resolveVehicle_lt {veh : List VehState} {r : RouteResp} {ri k : ℕ}
    (h : resolveVehicle veh r ri = some k) : k < veh.length := by
  unfold resolveVehicle at h
  have hbn : ∀ (o : Option String) (j : ℕ),
      (match o with
       | some lbl => if lbl = "" then none else vehicleByNameLookup veh lbl
       | none => none) = some j → j < veh.length := by
    intro o j ho
    match o with
    | none => exact Option.noConfusion ho
    | some lbl =>
      by_cases he : lbl = ""
      · simp [he] at ho
      · simp [he] at ho
        exact vehicleByNameLookup_lt ho
  dsimp only at h
  split at h
  · next heq => cases h; exact hbn r.vehicle k heq
  · split at h
    · next heq =>
      cases h
      cases hvi : r.vehicleIndex with
      | none => rw [hvi] at heq; exact Option.noConfusion heq
      | some i =>
        rw [hvi] at heq
        exact idxGetNat_lt heq
    · split at h
      · next heq => cases h; exact hbn r.vehicleLabel k heq
      · split at h
        · cases h; assumption
        · exact Option.noConfusion h

/-! ## C1: the capacity invariant -/

/-- C1 counterexample: a vehicle with one available seat, two eligible
targets, and an optimizer response whose single route visits both
shipments.  The remote mapping copies the resolved visit sequence into
the vehicle's picks verbatim, so the final pick list has length 2,
exceeding the initial available seat count 1 — the capacity bound does
not hold on the remote-optimizer path. -/
theorem c1_capacity_cex :
    ((remoteAssign (fun _ _ => (0 : ℚ))
        [⟨"a", "A", (0, 0), "", ""⟩, ⟨"b", "B", (0, 1), "", ""⟩]
        [⟨"v1", none, "car", "P1", (0, 0), 1, none, []⟩]
        [⟨none, some 0, none,
          [⟨some 0, none, none, none, []⟩, ⟨some 1, none, none, none, []⟩]⟩]).vehicles.get? 0).map
      (fun v => v.picks.length) = some 2 ∧ ¬(2 ≤ 1) := by
  with_unfolding_all decide

/-- C1 amended: the pick list of every vehicle is bounded by its
initial available seats (a) on the greedy fallback path
unconditionally (for vehicles entering with empty pick lists, as in the
pipeline), and (b) on the remote-optimizer path (mapping plus safety
net) provided every optimizer route resolves to at most as many visits
as its vehicle's initial seats — the mapping itself copies the
optimizer's visit list without enforcing the bound. -/
theorem c1_capacity_amended :
    (∀ (cost : ℕ × ℕ → ℚ) (veh : List VehState) (n i : ℕ) (v0 vf : VehState),
      (∀ v ∈ veh, v.picks = []) →
      veh.get? i = some v0 →
      (greedyFallback cost veh n).vehicles.get? i = some vf →
      vf.picks.length ≤ v0.seatsLeft) ∧
    (∀ (distKm : Coord → Coord → ℚ) (targets : List Target) (veh : List VehState)
      (routes : List RouteResp) (i : ℕ) (v0 vf : VehState),
      (∀ pr ∈ routes.enum, ∀ vIdx v, resolveVehicle veh pr.2 pr.1 = some vIdx →
        veh.get? vIdx = some v →
        (pr.2.visits.filterMap (getShipmentFromVisit targets)).length ≤ v.seatsLeft) →
      veh.get? i = some v0 →
      (remoteAssign distKm targets veh routes).vehicles.get? i = some vf →
      vf.picks.length ≤ v0.seatsLeft) := by
  constructor
  · intro cost veh n i v0 vf hempty hv0 hvf
    have hinv : vehInv (fun j => ((veh.get? j).map (·.seatsLeft)).getD 0) veh := by
      intro j v hj
      have hm : v ∈ veh := by
        rw [List.get?_eq_getElem?] at hj
        exact List.mem_iff_getElem?.mpr ⟨j, hj⟩
      rw [hempty v hm]
      rw [List.get?_eq_getElem?] at hj
      simp [hj]
    have := greedyLoop_capacity cost _ n _ hinv i vf hvf
    rw [hv0] at this
    simp at this
    omega
  · intro distKm targets veh routes i v0 vf hcap hv0 hvf
    have hcap2 : ∀ pr ∈ routes.enum, ∀ vIdx, resolveVehicle veh pr.2 pr.1 = some vIdx →
        (pr.2.visits.filterMap (getShipmentFromVisit targets)).length ≤
          ((veh.get? vIdx).map (·.seatsLeft)).getD 0 := by
      intro pr hpr vIdx hres
      have hlt := resolveVehicle_lt hres
      cases hg : veh.get? vIdx with
      | none =>
        rw [List.get?_eq_getElem?, List.getElem?_eq_none_iff] at hg
        omega
      | some v =>
        have := hcap pr hpr vIdx v hres hg
        simpa using this
    have h0 : ∀ j v, veh.get? j = some v →
        v.seatsLeft ≤ ((veh.get? j).map (·.seatsLeft)).getD 0 := by
      intro j v hj
      rw [hj]
      simp
    have := remoteAssign_capacity distKm targets veh routes _ h0 hcap2 i vf hvf
    rw [hv0] at this
    simp at this
    omega

/-- Witness for C1 amended at concrete one-vehicle scenarios: the
greedy fallback fills the single seat with the single target, and the
remote path maps a one-visit route onto the one-seat vehicle. -/
theorem c1_capacity_amended_witness :
    ({ id := "v1", email := none, vtype := "car", plate := "P1", start := ((0 : ℚ), (0 : ℚ)),
        seatsLeft := 0, city := none, picks := [0] } : VehState).picks.length ≤ 1 ∧
    ({ id := "v1", email := none, vtype := "car", plate := "P1", start := ((0 : ℚ), (0 : ℚ)),
        seatsLeft := 0, city := none, picks := [0] } : VehState).picks.length ≤ 1 := by
  constructor
  · exact c1_capacity_amended.1 (fun _ => 0)
      [⟨"v1", none, "car", "P1", (0, 0), 1, none, []⟩] 1 0
      ⟨"v1", none, "car", "P1", (0, 0), 1, none, []⟩
      ⟨"v1", none, "car", "P1", (0, 0), 0, none, [0]⟩
      (by intro v hv; rcases List.mem_singleton.mp hv with rfl; rfl)
      rfl (by with_unfolding_all decide)
  · exact c1_capacity_amended.2 (fun _ _ => 0) [⟨"a", "A", (0, 0), "", ""⟩]
      [⟨"v1", none, "car", "P1", (0, 0), 1, none, []⟩]
      [⟨none, some 0, none, [⟨some 0, none, none, none, []⟩]⟩] 0
      ⟨"v1", none, "car", "P1", (0, 0), 1, none, []⟩
      ⟨"v1", none, "car", "P1", (0, 0), 0, none, [0]⟩
      (by
        intro pr hpr vIdx v hres hget
        rcases List.mem_singleton.mp hpr with rfl
        have h0 : resolveVehicle [⟨"v1", none, "car", "P1", ((0 : ℚ), (0 : ℚ)), 1, none, []⟩]
            (⟨none, some 0, none, [⟨some 0, none, none, none, []⟩]⟩ : RouteResp) 0 = some 0 := by
          with_unfolding_all decide
        rw [h0] at hres
        cases hres
        cases hget
        decide)
      rfl (by with_unfolding_all decide)

/-! ## C2: reconciliation and the unassigned report -/

/-- C2 counterexample: two runs on the remote path with identical
vehicle/target/hazard counts, one leaving eligible target "B" in no
vehicle's picks (one seat, optimizer assigns only "A", safety net finds
no capacity) and one assigning both targets.  The returned metadata of
the two runs is identical, so the metadata carries no unassigned count
— the unassigned outcome is not reported in the returned meta,
refuting the claim. -/
theorem c2_no_silent_loss_cex :
    (pickupsOf (okFeatures (planRoutes sqDist (fun _ => none)
        [⟨"a", "A", some (23.7348, 37.9755), "", ""⟩, ⟨"b", "B", some (23.7348, 37.9755), "", ""⟩]
        [⟨"v1", none, (23.7348, 37.9755), 1, 0, "car", "P1"⟩]
        [.polygon [[(23, 37), (24, 37), (24, 39), (23, 39), (23, 37)]]] []
        [⟨none, some 0, none, [⟨some 0, none, none, none, []⟩]⟩] none))).map (·.2.name) =
      ["A"] ∧
    (pickupsOf (okFeatures (planRoutes sqDist (fun _ => none)
        [⟨"a", "A", some (23.7348, 37.9755), "", ""⟩, ⟨"b", "B", some (23.7348, 37.9755), "", ""⟩]
        [⟨"v1", none, (23.7348, 37.9755), 2, 0, "car", "P1"⟩]
        [.polygon [[(23, 37), (24, 37), (24, 39), (23, 39), (23, 37)]]] []
        [⟨none, some 0, none, [⟨some 0, none, none, none, []⟩, ⟨some 1, none, none, none, []⟩]⟩]
        none))).map (·.2.name) = ["A", "B"] ∧
    okMeta (planRoutes sqDist (fun _ => none)
        [⟨"a", "A", some (23.7348, 37.9755), "", ""⟩, ⟨"b", "B", some (23.7348, 37.9755), "", ""⟩]
        [⟨"v1", none, (23.7348, 37.9755), 1, 0, "car", "P1"⟩]
        [.polygon [[(23, 37), (24, 37), (24, 39), (23, 39), (23, 37)]]] []
        [⟨none, some 0, none, [⟨some 0, none, none, none, []⟩]⟩] none) =
      okMeta (planRoutes sqDist (fun _ => none)
        [⟨"a", "A", some (23.7348, 37.9755), "", ""⟩, ⟨"b", "B", some (23.7348, 37.9755), "", ""⟩]
        [⟨"v1", none, (23.7348, 37.9755), 2, 0, "car", "P1"⟩]
        [.polygon [[(23, 37), (24, 37), (24, 39), (23, 39), (23, 37)]]] []
        [⟨none, some 0, none, [⟨some 0, none, none, none, []⟩, ⟨some 1, none, none, none, []⟩]⟩]
        none) := by
  with_unfolding_all decide

/-- C2 amended: reconciliation appends each missing target to the
vehicle with minimal distance among those with remaining seats and
decrements its seat counter; with no vehicle of remaining capacity the
state is left unchanged (the target stays unassigned) and no error is
raised — but the outcome is only logged: the response metadata of a
successful remote-path run is always exactly the vehicle, target and
active-disaster counts with no reason and no unassigned count. -/
theorem c2_reconciliation_amended :
    (∀ (distKm : Coord → Coord → ℚ) (vehicles : List VehState) (c : Coord),
      sNetPick distKm vehicles c = none ↔ ∀ v ∈ vehicles, v.seatsLeft = 0) ∧
    (∀ (distKm : Coord → Coord → ℚ) (vehicles : List VehState) (c : Coord) (b : ℕ × ℚ),
      sNetPick distKm vehicles c = some b →
        ∃ v, vehicles.get? b.1 = some v ∧ v.seatsLeft ≠ 0 ∧ b.2 = distKm v.start c ∧
          ∀ j u, vehicles.get? j = some u → u.seatsLeft ≠ 0 → b.2 ≤ distKm u.start c) ∧
    (∀ (distKm : Coord → Coord → ℚ) (targets : List Target) (st : RemoteState) (mi : ℕ)
      (t : Target), targets.get? mi = some t →
        (sNetPick distKm st.vehicles t.coord = none → sNetStep distKm targets st mi = st) ∧
        (∀ b, sNetPick distKm st.vehicles t.coord = some b →
          sNetStep distKm targets st mi =
            { st with vehicles := listModify st.vehicles b.1 fun v =>
                { v with picks := v.picks ++ [mi], seatsLeft := v.seatsLeft - 1 } })) ∧
    (∀ (distKm : Coord → Coord → ℚ) (routeFn : List Coord → Option Routed)
      (amea : List AmeaRec) (fleet : List FleetRec) (geoms : List Geom)
      (includeIds : List String) (solvedRoutes : List RouteResp)
      (durations : Option (List (List (Option ℚ)))),
      fleet.isEmpty = false → geoms.isEmpty = false →
      (targetsOf geoms amea).isEmpty = false →
      ((vehiclesAllOf distKm includeIds fleet).map (·.seatsLeft)).sum ≠ 0 →
      ((vehiclesAllOf distKm includeIds fleet).all fun v => v.city.isSome) = true →
      ((targetsOf geoms amea).all fun t =>
        (nearestCityForCoord distKm t.coord).isSome) = true →
      solvedRoutes.isEmpty = false →
      planRoutes distKm routeFn amea fleet geoms includeIds solvedRoutes durations =
        .ok ⟨buildFeatures routeFn distKm (targetsOf geoms amea)
              (remoteAssign distKm (targetsOf geoms amea)
                (vehiclesAllOf distKm includeIds fleet) solvedRoutes).vehicles,
            ⟨fleet.length, (targetsOf geoms amea).length, geoms.length, none⟩⟩) := by
  refine ⟨?_, ?_, ?_, ?_⟩
  · intro distKm vehicles c
    exact (sNetPick_char distKm vehicles c).1
  · intro distKm vehicles c b hb
    rcases (sNetPick_char distKm vehicles c).2.1 b hb with ⟨v, hv, hz, he⟩
    exact ⟨v, hv, hz, he, (sNetPick_char distKm vehicles c).2.2 b hb⟩
  · intro distKm targets st mi t ht
    constructor
    · intro hnone
      unfold sNetStep
      rw [ht]
      dsimp only
      rw [hnone]
    · intro b hb
      unfold sNetStep
      rw [ht]
      dsimp only
      rw [hb]
  · intro distKm routeFn amea fleet geoms includeIds solvedRoutes durations
      h1 h2 h3 h4 h5 h6 h7
    unfold planRoutes
    simp only [h1, h2, h3, h5, h6, h7, Bool.false_eq_true, or_self, if_false,
      Bool.and_self, if_true]
    rw [if_neg h4]

/-- Witness for C2 amended: a concrete remote-path run (one vehicle
with one seat, two eligible targets, optimizer assigns one) returns
`ok` with the fixed three-count metadata. -/
theorem c2_reconciliation_amended_witness :
    planRoutes sqDist (fun _ => none)
        [⟨"a", "A", some (23.7348, 37.9755), "", ""⟩, ⟨"b", "B", some (23.7348, 37.9755), "", ""⟩]
        [⟨"v1", none, (23.7348, 37.9755), 1, 0, "car", "P1"⟩]
        [.polygon [[(23, 37), (24, 37), (24, 39), (23, 39), (23, 37)]]] []
        [⟨none, some 0, none, [⟨some 0, none, none, none, []⟩]⟩] none =
      .ok ⟨buildFeatures (fun _ => none) sqDist
            (targetsOf [.polygon [[(23, 37), (24, 37), (24, 39), (23, 39), (23, 37)]]]
              [⟨"a", "A", some (23.7348, 37.9755), "", ""⟩,
                ⟨"b", "B", some (23.7348, 37.9755), "", ""⟩])
            (remoteAssign sqDist
              (targetsOf [.polygon [[(23, 37), (24, 37), (24, 39), (23, 39), (23, 37)]]]
                [⟨"a", "A", some (23.7348, 37.9755), "", ""⟩,
                  ⟨"b", "B", some (23.7348, 37.9755), "", ""⟩])
              (vehiclesAllOf sqDist [] [⟨"v1", none, (23.7348, 37.9755), 1, 0, "car", "P1"⟩])
              [⟨none, some 0, none, [⟨some 0, none, none, none, []⟩]⟩]).vehicles,
          ⟨1,
            (targetsOf [.polygon [[(23, 37), (24, 37), (24, 39), (23, 39), (23, 37)]]]
              [⟨"a", "A", some (23.7348, 37.9755), "", ""⟩,
                ⟨"b", "B", some (23.7348, 37.9755), "", ""⟩]).length,
            1, none⟩⟩ :=
  c2_reconciliation_amended.2.2.2 sqDist (fun _ => none)
    [⟨"a", "A", some (23.7348, 37.9755), "", ""⟩, ⟨"b", "B", some (23.7348, 37.9755), "", ""⟩]
    [⟨"v1", none, (23.7348, 37.9755), 1, 0, "car", "P1"⟩]
    [.polygon [[(23, 37), (24, 37), (24, 39), (23, 39), (23, 37)]]] []
    [⟨none, some 0, none, [⟨some 0, none, none, none, []⟩]⟩] none
    (by with_unfolding_all decide) (by with_unfolding_all decide)
    (by with_unfolding_all decide) (by with_unfolding_all decide)
    (by with_unfolding_all decide) (by with_unfolding_all decide)
    (by with_unfolding_all decide)

/-! ## C6: the emitted stop order -/

/-- C6 counterexample: a vehicle at the origin whose pick list is
`[far, near]`.  The route builder emits the pickups in exactly that
pick-list order, while nearest-neighbor sequencing from the vehicle's
location would visit `near` first — so the emitted stop sequence is not
the nearest-neighbor order the claim describes. -/
theorem c6_route_order_cex :
    (pickupsOf (vehicleFeatures (fun _ => none) sqDist
        [⟨"f", "far", (0, 2), "", ""⟩, ⟨"n", "near", (0, 1), "", ""⟩]
        ⟨"v1", none, "car", "P1", (0, 0), 0, none, [0, 1]⟩)).map (·.2.name) =
      ["far", "near"] ∧
    (nearestNeighborRoute sqDist (0, 0)
        [⟨"f", "far", (0, 2), "", ""⟩, ⟨"n", "near", (0, 1), "", ""⟩]).map (·.name) =
      ["near", "far"] ∧
    (["far", "near"] : List String) ≠ ["near", "far"] := by
  with_unfolding_all decide

/-- C6 amended: the route builder uses the pick list as-is
(`const order = v.picks`): the emitted pickup features follow the
pick-list order with sequence numbers 1..n, and the stop sequence
submitted to the routing provider (and emitted as the straight-line
fallback geometry) is the vehicle start followed by the picks'
coordinates in pick-list order.  The `nearestNeighborRoute` helper is
defined in the file but never invoked by the served endpoint. -/
theorem c6_route_order_amended :
    (∀ (routeFn : List Coord → Option Routed) (distKm : Coord → Coord → ℚ)
      (targets : List Target) (v : VehState),
      (pickupsOf (vehicleFeatures routeFn distKm targets v)).map (·.1) =
        (orderStops targets v).map (·.coord) ∧
      (pickupsOf (vehicleFeatures routeFn distKm targets v)).map (·.2.name) =
        (orderStops targets v).map (·.name)) ∧
    (∀ (distKm : Coord → Coord → ℚ) (targets : List Target) (v : VehState),
      ¬v.picks.isEmpty →
      (vehicleFeatures (fun _ => none) distKm targets v).head? =
        some (PlanFeature.route (v.start :: (orderStops targets v).map (·.coord))
          ⟨v.vtype, v.id, v.plate, v.city, (orderStops targets v).length,
            (orderStops targets v).length, v.seatsLeft,
            round2 (legSum distKm (v.start :: (orderStops targets v).map (·.coord))),
            none⟩)) := by
  constructor
  · intro routeFn distKm targets v
    by_cases hp : v.picks.isEmpty
    · simp [vehicleFeatures, hp, pickupsOf, orderStops, List.isEmpty_iff.mp hp]
    · have hroute : ∀ (g : List Coord) (pp : RouteProps) (l : List PlanFeature),
          pickupsOf (PlanFeature.route g pp :: l) = pickupsOf l := by
        intro g pp l
        simp [pickupsOf, List.filterMap_cons]
      have hpicks : ∀ (l : List (ℕ × Target)),
          pickupsOf (l.map fun it => PlanFeature.pickup it.2.coord
            ⟨v.vtype, v.id, v.plate, v.city, it.1 + 1, it.2.name⟩) =
            l.map fun it =>
              (it.2.coord,
                (⟨v.vtype, v.id, v.plate, v.city, it.1 + 1, it.2.name⟩ : PickupProps)) := by
        intro l
        induction l with
        | nil => rfl
        | cons a t ih => simp only [List.map_cons, pickupsOf, List.filterMap_cons] at ih ⊢; rw [ih]
      have hred : pickupsOf (vehicleFeatures routeFn distKm targets v) =
          (orderStops targets v).enum.map fun it =>
            (it.2.coord, ⟨v.vtype, v.id, v.plate, v.city, it.1 + 1, it.2.name⟩) := by
        simp only [vehicleFeatures, hp, if_false, Bool.false_eq_true]
        rw [hroute, hpicks]
      rw [hred]
      constructor
      · rw [List.map_map,
          show ((fun cp : Coord × PickupProps => cp.1) ∘ fun it : ℕ × Target =>
            ((it.2.coord, ⟨v.vtype, v.id, v.plate, v.city, it.1 + 1, it.2.name⟩) :
              Coord × PickupProps)) = ((fun t : Target => t.coord) ∘ Prod.snd) from rfl,
          ← List.map_map, List.enum_map_snd]
      · rw [List.map_map,
          show ((fun cp : Coord × PickupProps => cp.2.name) ∘ fun it : ℕ × Target =>
            ((it.2.coord, ⟨v.vtype, v.id, v.plate, v.city, it.1 + 1, it.2.name⟩) :
              Coord × PickupProps)) = ((fun t : Target => t.name) ∘ Prod.snd) from rfl,
          ← List.map_map, List.enum_map_snd]
  · intro distKm targets v hp
    simp only [vehicleFeatures, hp, if_false, Bool.false_eq_true, List.head?_cons]

/-- Witness for C6 amended: the emitted route feature of a one-pick
vehicle carries exactly the start-then-pick stop sequence. -/
theorem c6_route_order_amended_witness :
    (vehicleFeatures (fun _ => none) sqDist [⟨"n", "near", ((0 : ℚ), (1 : ℚ)), "", ""⟩]
        ⟨"v1", none, "car", "P1", (0, 0), 0, none, [0]⟩).head? =
      some (PlanFeature.route
        (((0 : ℚ), (0 : ℚ)) ::
          (orderStops [⟨"n", "near", ((0 : ℚ), (1 : ℚ)), "", ""⟩]
            ⟨"v1", none, "car", "P1", (0, 0), 0, none, [0]⟩).map (·.coord))
        ⟨"car", "v1", "P1", none,
          (orderStops [⟨"n", "near", ((0 : ℚ), (1 : ℚ)), "", ""⟩]
            ⟨"v1", none, "car", "P1", (0, 0), 0, none, [0]⟩).length,
          (orderStops [⟨"n", "near", ((0 : ℚ), (1 : ℚ)), "", ""⟩]
            ⟨"v1", none, "car", "P1", (0, 0), 0, none, [0]⟩).length, 0,
          round2 (legSum sqDist (((0 : ℚ), (0 : ℚ)) ::
            (orderStops [⟨"n", "near", ((0 : ℚ), (1 : ℚ)), "", ""⟩]
              ⟨"v1", none, "car", "P1", (0, 0), 0, none, [0]⟩).map (·.coord))),
          none⟩) :=
  c6_route_order_amended.2 sqDist [⟨"n", "near", ((0 : ℚ), (1 : ℚ)), "", ""⟩]
    ⟨"v1", none, "car", "P1", (0, 0), 0, none, [0]⟩ (by decide)

/-! ## C7: partitions and the fallback solver -/

/-- C7 counterexample: one vehicle at the Athens city center (partition
Athens) and one eligible target at the Thessaloniki city center
(partition Thessaloniki); the optimizer returns nothing, so the greedy
fallback runs — globally, not per partition — and matches the Athens
vehicle with the Thessaloniki target, a cross-partition match the claim
rules out. -/
theorem c7_partition_cex :
    (pickupsOf (okFeatures (planRoutes sqDist (fun _ => none)
        [⟨"t1", "T1", some (22.9444, 40.6401), "", ""⟩]
        [⟨"v1", none, (23.7348, 37.9755), 1, 0, "car", "P1"⟩]
        [.polygon [[(22, 40), (23, 40), (23, 41), (22, 41), (22, 40)]]] [] [] none))).map
      (fun cp => (cp.2.name, cp.2.vehicleId, cp.2.city)) = [("T1", "v1", some "Athens")] ∧
    nearestCityForCoord sqDist (22.9444, 40.6401) = some "Thessaloniki" ∧
    (some "Thessaloniki" : Option String) ≠ some "Athens" := by
  with_unfolding_all decide

theorem sourceScan_relabel (cost : ℕ × ℕ → ℚ) (f : Option String → Option String)
    (veh : List VehState) (un : List ℕ) :
    sourceScan cost (veh.map (relabelCity f)) un = sourceScan cost veh un := by
  unfold sourceScan
  rw [List.length_map]
  congr 1
  funext acc vi
  have hm : (veh.map (relabelCity f)).get? vi = (veh.get? vi).map (relabelCity f) := by
    rw [List.get?_eq_getElem?, List.get?_eq_getElem?, List.getElem?_map]
  rw [hm]
  cases veh.get? vi <;> rfl

theorem any_seats_relabel (f : Option String → Option String) (veh : List VehState) :
    (veh.map (relabelCity f)).any (fun v => 0 < v.seatsLeft) =
      veh.any (fun v => 0 < v.seatsLeft) := by
  rw [List.any_map]
  rfl

theorem greedyLoop_relabel (cost : ℕ × ℕ → ℚ) (f : Option String → Option String) :
    ∀ (fuel : ℕ) (veh : List VehState) (un : List ℕ),
      greedyLoop cost fuel ⟨veh.map (relabelCity f), un⟩ =
        ⟨(greedyLoop cost fuel ⟨veh, un⟩).vehicles.map (relabelCity f),
          (greedyLoop cost fuel ⟨veh, un⟩).unassigned⟩ := by
  intro fuel
  induction fuel with
  | zero => intro veh un; rfl
  | succ n ih =>
    intro veh un
    unfold greedyLoop
    simp only [any_seats_relabel, sourceScan_relabel]
    by_cases hc : ¬un.isEmpty ∧ veh.any (fun v => 0 < v.seatsLeft)
    · rw [if_pos hc, if_pos hc]
      cases hscan : sourceScan cost veh un with
      | none => rfl
      | some b =>
        dsimp only
        have hmod : applyAssign ⟨veh.map (relabelCity f), un⟩ b.1 b.2.1 =
            ⟨(listModify veh b.1 fun v =>
                { v with picks := v.picks ++ [b.2.1], seatsLeft := v.seatsLeft - 1 }).map
                  (relabelCity f),
              un.erase b.2.1⟩ := by
          unfold applyAssign listModify
          simp only [List.get?_eq_getElem?, List.getElem?_map]
          cases hv : veh[b.1]? with
          | none => rfl
          | some v =>
            simp only [Option.map_some]
            rw [List.map_set]
            rfl
        rw [hmod]
        exact ih _ _
    · rw [if_neg hc, if_neg hc]

/-- C7 amended: with no optimizer routes, the fallback greedy solver is
invoked once, globally, on the full filtered vehicle list and the full
eligible-target list (the per-city grouping is computed but never
read), and the solver itself is invariant under any relabelling of the
vehicles' partition tags — so partition membership never constrains a
match, and cross-partition matches can occur. -/
theorem c7_partition_amended :
    (∀ (distKm : Coord → Coord → ℚ) (routeFn : List Coord → Option Routed)
      (amea : List AmeaRec) (fleet : List FleetRec) (geoms : List Geom)
      (includeIds : List String) (durations : Option (List (List (Option ℚ)))),
      fleet.isEmpty = false → geoms.isEmpty = false →
      (targetsOf geoms amea).isEmpty = false →
      ((vehiclesAllOf distKm includeIds fleet).map (·.seatsLeft)).sum ≠ 0 →
      ((vehiclesAllOf distKm includeIds fleet).all fun v => v.city.isSome) = true →
      ((targetsOf geoms amea).all fun t =>
        (nearestCityForCoord distKm t.coord).isSome) = true →
      planRoutes distKm routeFn amea fleet geoms includeIds [] durations =
        .ok ⟨buildFeatures routeFn distKm (targetsOf geoms amea)
              (greedyFallback
                (fun p => pairScore durations distKm (vehiclesAllOf distKm includeIds fleet)
                  (targetsOf geoms amea) p.1 p.2)
                (vehiclesAllOf distKm includeIds fleet)
                (targetsOf geoms amea).length).vehicles,
            ⟨fleet.length, (targetsOf geoms amea).length, geoms.length, none⟩⟩) ∧
    (∀ (cost : ℕ × ℕ → ℚ) (veh : List VehState) (n : ℕ)
      (f : Option String → Option String),
      (greedyFallback cost (veh.map (relabelCity f)) n).vehicles =
        (greedyFallback cost veh n).vehicles.map (relabelCity f)) := by
  constructor
  · intro distKm routeFn amea fleet geoms includeIds durations h1 h2 h3 h4 h5 h6
    unfold planRoutes
    simp only [h1, h2, h3, h5, h6, Bool.false_eq_true, or_self, if_false,
      Bool.and_self, if_true, List.isEmpty_nil]
    rw [if_neg h4]
  · intro cost veh n f
    unfold greedyFallback
    rw [greedyLoop_relabel]

/-- Witness for C7 amended at the cross-city scenario: the fallback
run returns `ok` with the global greedy result. -/
theorem c7_partition_amended_witness :
    planRoutes sqDist (fun _ => none)
        [⟨"t1", "T1", some (22.9444, 40.6401), "", ""⟩]
        [⟨"v1", none, (23.7348, 37.9755), 1, 0, "car", "P1"⟩]
        [.polygon [[(22, 40), (23, 40), (23, 41), (22, 41), (22, 40)]]] [] [] none =
      .ok ⟨buildFeatures (fun _ => none) sqDist
            (targetsOf [.polygon [[(22, 40), (23, 40), (23, 41), (22, 41), (22, 40)]]]
              [⟨"t1", "T1", some (22.9444, 40.6401), "", ""⟩])
            (greedyFallback
              (fun p => pairScore none sqDist
                (vehiclesAllOf sqDist [] [⟨"v1", none, (23.7348, 37.9755), 1, 0, "car", "P1"⟩])
                (targetsOf [.polygon [[(22, 40), (23, 40), (23, 41), (22, 41), (22, 40)]]]
                  [⟨"t1", "T1", some (22.9444, 40.6401), "", ""⟩]) p.1 p.2)
              (vehiclesAllOf sqDist [] [⟨"v1", none, (23.7348, 37.9755), 1, 0, "car", "P1"⟩])
              (targetsOf [.polygon [[(22, 40), (23, 40), (23, 41), (22, 41), (22, 40)]]]
                [⟨"t1", "T1", some (22.9444, 40.6401), "", ""⟩]).length).vehicles,
          ⟨1,
            (targetsOf [.polygon [[(22, 40), (23, 40), (23, 41), (22, 41), (22, 40)]]]
              [⟨"t1", "T1", some (22.9444, 40.6401), "", ""⟩]).length,
            1, none⟩⟩ :=
  c7_partition_amended.1 sqDist (fun _ => none)
    [⟨"t1", "T1", some (22.9444, 40.6401), "", ""⟩]
    [⟨"v1", none, (23.7348, 37.9755), 1, 0, "car", "P1"⟩]
    [.polygon [[(22, 40), (23, 40), (23, 41), (22, 41), (22, 40)]]] [] none
    (by with_unfolding_all decide) (by with_unfolding_all decide)
    (by with_unfolding_all decide) (by with_unfolding_all decide)
    (by with_unfolding_all decide) (by with_unfolding_all decide)

/-! ## C8: out-of-area entities -/

/-- C8 counterexample: a second vehicle at `(0,0)`, outside the radius
of every city center, makes the whole run fail with the `plan_failed`
error response instead of being excluded while the run completes
normally — `cityVehicles[null].push` throws. -/
theorem c8_unpartitioned_cex :
    errOf (planRoutes sqDist (fun _ => none)
        [⟨"t1", "T1", some (23.7348, 37.9755), "", ""⟩]
        [⟨"v1", none, (23.7348, 37.9755), 1, 0, "car", "P1"⟩,
          ⟨"v2", none, (0, 0), 1, 0, "car", "P2"⟩]
        [.polygon [[(23, 37), (24, 37), (24, 39), (23, 39), (23, 37)]]] [] [] none) =
      some "plan_failed" ∧
    nearestCityForCoord sqDist (0, 0) = none := by
  with_unfolding_all decide

/-- C8 amended: an entity farther than the radius from every city
center is indeed assigned no partition (`nearestCityForCoord` returns
null), but it is not excluded from the run: as soon as the grouping
step runs with any partitionless vehicle or target present, the whole
run fails with the `plan_failed` error response. -/
theorem c8_unpartitioned_amended :
    (∀ (distKm : Coord → Coord → ℚ) (c : Coord),
      (∀ nc ∈ CITY_CENTERS, CITY_RADIUS_KM < distKm nc.2 c) →
      nearestCityForCoord distKm c = none) ∧
    (∀ (distKm : Coord → Coord → ℚ) (routeFn : List Coord → Option Routed)
      (amea : List AmeaRec) (fleet : List FleetRec) (geoms : List Geom)
      (includeIds : List String) (solvedRoutes : List RouteResp)
      (durations : Option (List (List (Option ℚ)))),
      fleet.isEmpty = false → geoms.isEmpty = false →
      (targetsOf geoms amea).isEmpty = false →
      ((vehiclesAllOf distKm includeIds fleet).map (·.seatsLeft)).sum ≠ 0 →
      (((vehiclesAllOf distKm includeIds fleet).all fun v => v.city.isSome) &&
        ((targetsOf geoms amea).all fun t =>
          (nearestCityForCoord distKm t.coord).isSome)) = false →
      planRoutes distKm routeFn amea fleet geoms includeIds solvedRoutes durations =
        .error "plan_failed") := by
  constructor
  · intro distKm c h
    have hA : CITY_RADIUS_KM < distKm (23.7348, 37.9755) c :=
      h ("Athens", (23.7348, 37.9755)) (by simp [CITY_CENTERS])
    have hT : CITY_RADIUS_KM < distKm (22.9444, 40.6401) c :=
      h ("Thessaloniki", (22.9444, 40.6401)) (by simp [CITY_CENTERS])
    have hP : CITY_RADIUS_KM < distKm (21.7346, 38.2466) c :=
      h ("Patras", (21.7346, 38.2466)) (by simp [CITY_CENTERS])
    unfold nearestCityForCoord CITY_CENTERS
    simp only [List.foldl_cons, List.foldl_nil]
    by_cases h1 : distKm (22.9444, 40.6401) c < distKm (23.7348, 37.9755) c
    · by_cases h2 : distKm (21.7346, 38.2466) c < distKm (22.9444, 40.6401) c
      · simp [h1, h2, not_le.mpr hP]
      · simp [h1, h2, not_le.mpr hT]
    · by_cases h2 : distKm (21.7346, 38.2466) c < distKm (23.7348, 37.9755) c
      · simp [h1, h2, not_le.mpr hP]
      · simp [h1, h2, not_le.mpr hA]
  · intro distKm routeFn amea fleet geoms includeIds solvedRoutes durations h1 h2 h3 h4 h5
    unfold planRoutes
    simp only [h1, h2, h3, h5, Bool.false_eq_true, or_self, if_false]
    rw [if_neg h4]

/-- Witness for C8 amended: `(0,0)` is beyond every center's radius
under the surrogate metric and gets no partition, and the concrete
two-vehicle run with that stray vehicle fails with `plan_failed`. -/
theorem c8_unpartitioned_amended_witness :
    nearestCityForCoord sqDist (0, 0) = none ∧
    planRoutes sqDist (fun _ => none)
        [⟨"t1", "T1", some (23.7348, 37.9755), "", ""⟩]
        [⟨"v1", none, (23.7348, 37.9755), 1, 0, "car", "P1"⟩,
          ⟨"v2", none, (0, 0), 1, 0, "car", "P2"⟩]
        [.polygon [[(23, 37), (24, 37), (24, 39), (23, 39), (23, 37)]]] [] [] none =
      .error "plan_failed" :=
  ⟨c8_unpartitioned_amended.1 sqDist (0, 0) (by with_unfolding_all decide),
    c8_unpartitioned_amended.2 sqDist (fun _ => none)
      [⟨"t1", "T1", some (23.7348, 37.9755), "", ""⟩]
      [⟨"v1", none, (23.7348, 37.9755), 1, 0, "car", "P1"⟩,
        ⟨"v2", none, (0, 0), 1, 0, "car", "P2"⟩]
      [.polygon [[(23, 37), (24, 37), (24, 39), (23, 39), (23, 37)]]] [] [] none
      (by with_unfolding_all decide) (by with_unfolding_all decide)
      (by with_unfolding_all decide) (by with_unfolding_all decide)
      (by with_unfolding_all decide)⟩

/-! ## C9: degenerate runs return structured results -/

/-- C9: the planner returns a structured result (never a thrown error)
in the degenerate cases — with no active hazard geometries or no
vehicles (or no eligible targets) it returns an empty feature
collection whose metadata reports zero targets, and when no vehicle
has spare seats it returns an empty result with reason `no_capacity`,
or `no_capacity_in_selected` when the vehicle-id filter was supplied. -/
theorem c9_degenerate_returns :
    (∀ (distKm : Coord → Coord → ℚ) (routeFn : List Coord → Option Routed)
      (amea : List AmeaRec) (fleet : List FleetRec) (geoms : List Geom)
      (includeIds : List String) (solvedRoutes : List RouteResp)
      (durations : Option (List (List (Option ℚ)))),
      fleet.isEmpty = true ∨ geoms.isEmpty = true →
      planRoutes distKm routeFn amea fleet geoms includeIds solvedRoutes durations =
        .ok ⟨[], ⟨fleet.length, 0, geoms.length, none⟩⟩) ∧
    (∀ (distKm : Coord → Coord → ℚ) (routeFn : List Coord → Option Routed)
      (amea : List AmeaRec) (fleet : List FleetRec) (geoms : List Geom)
      (includeIds : List String) (solvedRoutes : List RouteResp)
      (durations : Option (List (List (Option ℚ)))),
      (targetsOf geoms amea).isEmpty = true →
      planRoutes distKm routeFn amea fleet geoms includeIds solvedRoutes durations =
        .ok ⟨[], ⟨fleet.length, 0, geoms.length, none⟩⟩) ∧
    (∀ (distKm : Coord → Coord → ℚ) (routeFn : List Coord → Option Routed)
      (amea : List AmeaRec) (fleet : List FleetRec) (geoms : List Geom)
      (includeIds : List String) (solvedRoutes : List RouteResp)
      (durations : Option (List (List (Option ℚ)))),
      fleet.isEmpty = false → geoms.isEmpty = false →
      (targetsOf geoms amea).isEmpty = false →
      ((vehiclesAllOf distKm includeIds fleet).map (·.seatsLeft)).sum = 0 →
      planRoutes distKm routeFn amea fleet geoms includeIds solvedRoutes durations =
        .ok ⟨[], ⟨fleet.length, (targetsOf geoms amea).length, geoms.length,
          some (if includeIds.isEmpty then "no_capacity" else "no_capacity_in_selected")⟩⟩) := by
  refine ⟨?_, ?_, ?_⟩
  · intro distKm routeFn amea fleet geoms includeIds solvedRoutes durations h
    rcases h with h | h <;> simp [planRoutes, h]
  · intro distKm routeFn amea fleet geoms includeIds solvedRoutes durations h
    by_cases h1 : fleet.isEmpty
    · simp [planRoutes, h1]
    · by_cases h2 : geoms.isEmpty
      · simp [planRoutes, h2]
      · simp [planRoutes, h1, h2, h]
  · intro distKm routeFn amea fleet geoms includeIds solvedRoutes durations h1 h2 h3 h4
    simp [planRoutes, h1, h2, h3, h4]

/-- Witness for C9 at concrete degenerate runs: no hazards, no
eligible targets, and a fleet with no spare seats (with and without
the id filter). -/
theorem c9_degenerate_returns_witness :
    planRoutes sqDist (fun _ => none) [] [⟨"v1", none, (0, 0), 1, 0, "car", "P1"⟩] []
        [] [] none = .ok ⟨[], ⟨1, 0, 0, none⟩⟩ ∧
    planRoutes sqDist (fun _ => none) []
        [⟨"v1", none, (23.7348, 37.9755), 1, 0, "car", "P1"⟩]
        [.polygon [[(23, 37), (24, 37), (24, 39), (23, 39), (23, 37)]]] [] [] none =
      .ok ⟨[], ⟨1, 0, 1, none⟩⟩ ∧
    okMeta (planRoutes sqDist (fun _ => none)
        [⟨"t1", "T1", some (23.7348, 37.9755), "", ""⟩]
        [⟨"v1", none, (23.7348, 37.9755), 2, 2, "car", "P1"⟩]
        [.polygon [[(23, 37), (24, 37), (24, 39), (23, 39), (23, 37)]]] [] [] none) =
      some ⟨1, 1, 1, some "no_capacity"⟩ ∧
    okMeta (planRoutes sqDist (fun _ => none)
        [⟨"t1", "T1", some (23.7348, 37.9755), "", ""⟩]
        [⟨"v1", none, (23.7348, 37.9755), 2, 2, "car", "P1"⟩]
        [.polygon [[(23, 37), (24, 37), (24, 39), (23, 39), (23, 37)]]] ["v9"] [] none) =
      some ⟨1, 1, 1, some "no_capacity_in_selected"⟩ := by
  refine ⟨?_, ?_, ?_, ?_⟩
  · exact c9_degenerate_returns.1 sqDist (fun _ => none) []
      [⟨"v1", none, (0, 0), 1, 0, "car", "P1"⟩] [] [] [] none (Or.inr rfl)
  · exact c9_degenerate_returns.2.1 sqDist (fun _ => none) []
      [⟨"v1", none, (23.7348, 37.9755), 1, 0, "car", "P1"⟩]
      [.polygon [[(23, 37), (24, 37), (24, 39), (23, 39), (23, 37)]]] [] [] none rfl
  · have h := c9_degenerate_returns.2.2 sqDist (fun _ => none)
      [⟨"t1", "T1", some (23.7348, 37.9755), "", ""⟩]
      [⟨"v1", none, (23.7348, 37.9755), 2, 2, "car", "P1"⟩]
      [.polygon [[(23, 37), (24, 37), (24, 39), (23, 39), (23, 37)]]] [] [] none
      rfl rfl (by with_unfolding_all decide) (by with_unfolding_all decide)
    rw [h]
    with_unfolding_all decide
  · have h := c9_degenerate_returns.2.2 sqDist (fun _ => none)
      [⟨"t1", "T1", some (23.7348, 37.9755), "", ""⟩]
      [⟨"v1", none, (23.7348, 37.9755), 2, 2, "car", "P1"⟩]
      [.polygon [[(23, 37), (24, 37), (24, 39), (23, 39), (23, 37)]]] ["v9"] [] none
      rfl rfl (by with_unfolding_all decide) (by with_unfolding_all decide)
    rw [h]
    with_unfolding_all decide

/-! ## C10: the capacity fields of a route feature -/

/-- C10: every emitted route feature reports `assigned` and
`capacityUsed` equal to the number of picks, and `capacityTotal` equal
to the vehicle's `seatsLeft` counter after all assignment decrements —
and on a concrete run that remaining-seat value (1) differs from both
the initial available seats (2) and the total seats (3). -/
theorem c10_capacity_fields :
    (∀ (routeFn : List Coord → Option Routed) (distKm : Coord → Coord → ℚ)
      (targets : List Target) (v : VehState), ¬v.picks.isEmpty →
      (routePropsOf (vehicleFeatures routeFn distKm targets v)).map
        (fun p => (p.assigned, p.capacityUsed, p.capacityTotal)) =
        [(v.picks.length, v.picks.length, v.seatsLeft)]) ∧
    ((routePropsOf (okFeatures (planRoutes sqDist (fun _ => none)
        [⟨"t1", "T1", some (23.7348, 37.9755), "", ""⟩]
        [⟨"v1", none, (23.7348, 37.9755), 3, 1, "car", "P1"⟩]
        [.polygon [[(23, 37), (24, 37), (24, 39), (23, 39), (23, 37)]]] [] [] none))).map
      (fun p => (p.capacityUsed, p.capacityTotal)) = [(1, 1)] ∧
      availableSeats ⟨"v1", none, (23.7348, 37.9755), 3, 1, "car", "P1"⟩ = 2 ∧
      (1 : ℕ) ≠ 2 ∧ (1 : ℕ) ≠ 3) := by
  constructor
  · intro routeFn distKm targets v hp
    have hpickups : ∀ (l : List (ℕ × Target)),
        routePropsOf (l.map fun it => PlanFeature.pickup it.2.coord
          ⟨v.vtype, v.id, v.plate, v.city, it.1 + 1, it.2.name⟩) = [] := by
      intro l
      induction l with
      | nil => rfl
      | cons a t ih => simp only [List.map_cons, routePropsOf, List.filterMap_cons] at ih ⊢; rw [ih]
    simp only [vehicleFeatures, hp, if_false, Bool.false_eq_true]
    rw [show ∀ (g : List Coord) (pp : RouteProps) (l : List PlanFeature),
        routePropsOf (PlanFeature.route g pp :: l) = pp :: routePropsOf l from
      fun g pp l => by simp [routePropsOf, List.filterMap_cons]]
    rw [hpickups]
    simp [orderStops]
  · exact ⟨by with_unfolding_all decide, by decide, by decide, by decide⟩

/-- Witness for C10 at a concrete two-pick vehicle. -/
theorem c10_capacity_fields_witness :
    (routePropsOf (vehicleFeatures (fun _ => none) sqDist
        [⟨"f", "far", ((0 : ℚ), (2 : ℚ)), "", ""⟩, ⟨"n", "near", ((0 : ℚ), (1 : ℚ)), "", ""⟩]
        ⟨"v1", none, "car", "P1", (0, 0), 0, none, [0, 1]⟩)).map
      (fun p => (p.assigned, p.capacityUsed, p.capacityTotal)) = [(2, 2, 0)] :=
  c10_capacity_fields.1 (fun _ => none) sqDist
    [⟨"f", "far", ((0 : ℚ), (2 : ℚ)), "", ""⟩, ⟨"n", "near", ((0 : ℚ), (1 : ℚ)), "", ""⟩]
    ⟨"v1", none, "car", "P1", (0, 0), 0, none, [0, 1]⟩ (by decide)
